import Mathlib

/-!
Co-Scheduler: a cooperative, tick-driven task scheduler.

A shallow embedding of `src/sch.c` (the POSIX scheduler) and of
`src/template/sch.c` (the target template) together with the properties of the
task table, the tick accounting `Sch_Update` and the dispatcher
`Sch_DispatchTasks`.

Conventions of the embedding.

* `Config`, the module-wide array `static TaskConfig_t Config[SCH_MAX_TASKS]`, is
  a list that is threaded through every function; `SCH_MAX_TASKS` is its length.
* A function pointer is `Option Nat`: `none` is `NULL`, `some a` is the address
  of a task function.
* Machine integers are `Nat`/`Int`; every store that can overflow carries its
  explicit reduction modulo `2 ^ w`.
* An access `Config[i]` with `i` outside the array is undefined behaviour in C; the
  embedding stops there with `Fault.OutOfBounds i`.
* The loop counters are `uint8_t`, so every loop carries its counter modulo `256`
  and a fuel that counts evaluations of the loop test.  A `uint8_t` counter has
  `256` values; a loop whose test (which depends on the counter only, or on the
  counter and a table the loop does not change) held `256` times in a row has
  come back to a state it was in before, so running out of a fuel of `256` is
  reported as `Fault.Diverges`.
* Calling a task is recorded as an event of a trace; the task functions are
  assumed not to touch the table.
* The theorems about the loops over the whole table assume `SCH_MAX_TASKS ≤ 255`,
  the capacities for which a `uint8_t` counter reaches every slot and leaves the
  loop; the configurations of the repository set it to `1` and `2`.
* `Sch_AddTask_accesses` runs the search of `Sch_AddTask` a second time with its
  array accesses logged and with an arbitrary word behind the array, to say which
  indices the machine touches where the first embedding stops.
* `Op` and `runOps` are sequences of calls of the interface; a property of every
  reachable table is an invariant of `runOps`.
* Everything is sequential: the signal handler that calls `Sch_Update` is taken
  to run between two calls of the host loop, never inside one.
-/

namespace CoScheduler

/-! ## Data model -/

/-- The two scheduler sources: `src/sch.c` and `src/template/sch.c`. They differ in
the widths of `Delay` and `RunMe` and in what `Sch_Update` does after its loop. -/
inductive Variant where
  | posix
  | template
  deriving DecidableEq

/-- Width in bits of the field `Delay`: `uint32_t` in `src/sch.c`, `uint16_t` in
`src/template/sch.c`. -/
def Variant.delayBits : Variant → Nat
  | .posix => 32
  | .template => 16

/-- Conversion of an integer to the type of the field `RunMe`: `int8_t` in
`src/sch.c` (reduction modulo `2 ^ 8` into `-128 .. 127`, as every two's complement
compiler does), `uint16_t` in `src/template/sch.c`. -/
def Variant.wrapRunMe : Variant → Int → Int
  | .posix, x => (x + 128) % 256 - 128
  | .template, x => x % 65536

/-- One entry of the task table (`TaskConfig_t`). -/
structure TaskConfig_t where
  /-- Pointer to the task function, `none` for `NULL`. -/
  Task : Option Nat
  /-- Delay (ticks) until the function will next be run. -/
  Delay : Nat
  /-- Interval (ticks) between subsequent runs, `uint32_t`. -/
  Period : Nat
  /-- Incremented by the scheduler when the task is due to execute. -/
  RunMe : Int
  deriving DecidableEq

/-- The array `Config[SCH_MAX_TASKS]`. -/
abbrev Table := List TaskConfig_t

/-- The configured capacity: the number of entries of `Config`. -/
abbrev SCH_MAX_TASKS (Config : Table) : Nat := Config.length

/-- Ways in which a run of the C code has no result. -/
inductive Fault where
  /-- Access to `Config[index]` with `index` outside the array. -/
  | OutOfBounds (index : Nat)
  /-- A loop that never leaves. -/
  | Diverges
  deriving DecidableEq

deriving instance DecidableEq for Except

/-- One call `(*Config[TaskId].Task)()` made by the dispatcher. -/
structure Call where
  /-- Index of the slot whose task was called. -/
  TaskId : Nat
  /-- The function that was called. -/
  Task : Nat
  deriving DecidableEq

/-- The contents that `Sch_DeleteTask` writes: no task, all counters zero. -/
def freeSlot : TaskConfig_t :=
  { Task := none, Delay := 0, Period := 0, RunMe := 0 }

/-- Successor of a `uint8_t` loop counter (`Index++`). -/
def incr8 (i : Nat) : Nat := (i + 1) % 256

/-! ## The operations -/

/-- `Sch_DeleteTask(TaskId)`: the four stores to `Config[TaskId]`. There is no
bounds check in the source; an index outside the array is an out-of-bounds
write. -/
def Sch_DeleteTask (Config : Table) (TaskId : Nat) : Except Fault Table :=
  if TaskId < SCH_MAX_TASKS Config then
    .ok (Config.set TaskId freeSlot)
  else
    .error (.OutOfBounds TaskId)

/-- The loop of `Sch_Init`:
`for (TaskIndex = 0; TaskIndex < SCH_MAX_TASKS; TaskIndex++) Sch_DeleteTask(TaskIndex);` -/
def Sch_Init_loop : Nat → Nat → Table → Except Fault Table
  | 0, _, _ => .error .Diverges
  | fuel + 1, TaskIndex, Config =>
    if TaskIndex < SCH_MAX_TASKS Config then
      match Sch_DeleteTask Config TaskIndex with
      | .ok Config' => Sch_Init_loop fuel (incr8 TaskIndex) Config'
      | .error e => .error e
    else
      .ok Config

/-- The table-clearing part of `Sch_Init` (the timer and signal set-up that
follows it in `src/sch.c` does not touch `Config`). -/
def Sch_Init (Config : Table) : Except Fault Table :=
  Sch_Init_loop 256 0 Config

/-- The search loop of `Sch_AddTask`:
`while ((Config[TaskId].Task != NULL) && (TaskId < SCH_MAX_TASKS)) TaskId++;`
The slot is read before the bound is tested. -/
def Sch_AddTask_scan : Nat → Nat → Table → Except Fault Nat
  | 0, _, _ => .error .Diverges
  | fuel + 1, TaskId, Config =>
    match Config[TaskId]? with
    | none => .error (.OutOfBounds TaskId)
    | some s =>
      if s.Task ≠ none ∧ TaskId < SCH_MAX_TASKS Config then
        Sch_AddTask_scan fuel (incr8 TaskId) Config
      else
        .ok TaskId

/-- `Sch_AddTask(Function, Delay, Period)`: search from index 0, then the four
stores to `Config[TaskId]`; returns the index together with the new table. The
parameters are `uint32_t`; the store to `Delay` converts to the width of that
field. -/
def Sch_AddTask (v : Variant) (Config : Table) (Function : Option Nat)
    (Delay Period : Nat) : Except Fault (Nat × Table) :=
  match Sch_AddTask_scan 256 0 Config with
  | .error e => .error e
  | .ok TaskId =>
    if TaskId < SCH_MAX_TASKS Config then
      .ok (TaskId, Config.set TaskId
        { Task := Function, Delay := Delay % 2 ^ v.delayBits, Period := Period, RunMe := 0 })
    else
      .error (.OutOfBounds TaskId)

/-- The loop of `Sch_DispatchTasks`; `calls` collects the calls made so far.
`RunMe -= 1` is executed only when `RunMe > 0`, so it cannot wrap. -/
def Sch_DispatchTasks_loop : Nat → Nat → Table → List Call → Except Fault (List Call × Table)
  | 0, _, _, _ => .error .Diverges
  | fuel + 1, TaskId, Config, calls =>
    if TaskId < SCH_MAX_TASKS Config then
      match Config[TaskId]? with
      | none => .error (.OutOfBounds TaskId)
      | some s =>
        match s.Task with
        | some f =>
          if s.RunMe > 0 then
            Sch_DispatchTasks_loop fuel (incr8 TaskId)
              (Config.set TaskId { s with RunMe := s.RunMe - 1 }) (calls ++ [⟨TaskId, f⟩])
          else
            Sch_DispatchTasks_loop fuel (incr8 TaskId) Config calls
        | none => Sch_DispatchTasks_loop fuel (incr8 TaskId) Config calls
    else
      .ok (calls, Config)

/-- `Sch_DispatchTasks()`: the calls it makes, in order, and the new table. The
final `Sch_GoToSleep()` only blocks until the next signal and is left out. -/
def Sch_DispatchTasks (Config : Table) : Except Fault (List Call × Table) :=
  Sch_DispatchTasks_loop 256 0 Config []

/-- The loop of `Sch_Update`. `Period - 1` is computed in `uint32_t` and then
converted to the width of `Delay`; `RunMe += 1` converts back to the type of
`RunMe`; `Delay -= 1` is executed only when `Delay != 0`. -/
def Sch_Update_loop (v : Variant) : Nat → Nat → Table → Except Fault Table
  | 0, _, _ => .error .Diverges
  | fuel + 1, Index, Config =>
    if Index < SCH_MAX_TASKS Config then
      match Config[Index]? with
      | none => .error (.OutOfBounds Index)
      | some s =>
        if s.Task ≠ none then
          if s.Delay = 0 then
            Sch_Update_loop v fuel (incr8 Index)
              (Config.set Index
                { s with RunMe := v.wrapRunMe (s.RunMe + 1),
                         Delay := (s.Period + 2 ^ 32 - 1) % 2 ^ 32 % 2 ^ v.delayBits })
          else
            Sch_Update_loop v fuel (incr8 Index) (Config.set Index { s with Delay := s.Delay - 1 })
        else
          Sch_Update_loop v fuel (incr8 Index) Config
    else
      .ok Config

/-- `Sch_Update()`: one tick. In `src/sch.c` it is the loop alone and calls no
task; in `src/template/sch.c` the loop is followed by `Sch_DispatchTasks()`. -/
def Sch_Update (v : Variant) (Config : Table) : Except Fault (List Call × Table) :=
  match Sch_Update_loop v 256 0 Config with
  | .error e => .error e
  | .ok Config' =>
    match v with
    | .posix => .ok ([], Config')
    | .template => Sch_DispatchTasks Config'

/-- `n` consecutive calls of `Sch_Update` with nothing in between; the calls of
all ticks are concatenated. -/
def Sch_Update_times (v : Variant) : Nat → Table → Except Fault (List Call × Table)
  | 0, Config => .ok ([], Config)
  | n + 1, Config =>
    match Sch_Update v Config with
    | .error e => .error e
    | .ok (calls, Config') =>
      match Sch_Update_times v n Config' with
      | .error e => .error e
      | .ok (calls2, Config2) => .ok (calls ++ calls2, Config2)

/-- `n` consecutive calls of `Sch_DispatchTasks` with no tick in between; the
result lists the calls of each round separately. -/
def Sch_DispatchTasks_times : Nat → Table → Except Fault (List (List Call) × Table)
  | 0, Config => .ok ([], Config)
  | n + 1, Config =>
    match Sch_DispatchTasks Config with
    | .error e => .error e
    | .ok (calls, Config') =>
      match Sch_DispatchTasks_times n Config' with
      | .error e => .error e
      | .ok (rounds, Config2) => .ok (calls :: rounds, Config2)

/-- One access to the array `Config` made by `Sch_AddTask`. -/
inductive Access where
  /-- The test `Config[index].Task != NULL` of the search loop. -/
  | read (index : Nat)
  /-- The stores to the fields of `Config[index]`. -/
  | write (index : Nat)
  deriving DecidableEq

/-- The index of the array that an access goes to. -/
def Access.index : Access → Nat
  | .read i => i
  | .write i => i

/-- The value that the test `Config[TaskId].Task` of `Sch_AddTask` finds. Inside
the array it is the field of the slot; what lies behind the array is not part of
the table and is given by `beyond`. -/
def Sch_AddTask_readTask (beyond : Nat → Option Nat) (Config : Table) (TaskId : Nat) :
    Option Nat :=
  match Config[TaskId]? with
  | some s => s.Task
  | none => beyond TaskId

/-- The search loop of `Sch_AddTask` again, now as the machine runs it: every
test of a slot is logged, and a read past the end of the array does not stop the
run but finds `beyond`. -/
def Sch_AddTask_scan_accesses (beyond : Nat → Option Nat) :
    Nat → Nat → Table → List Access → Except Fault (Nat × List Access)
  | 0, _, _, _ => .error .Diverges
  | fuel + 1, TaskId, Config, log =>
    if Sch_AddTask_readTask beyond Config TaskId ≠ none ∧ TaskId < SCH_MAX_TASKS Config then
      Sch_AddTask_scan_accesses beyond fuel (incr8 TaskId) Config (log ++ [.read TaskId])
    else
      .ok (TaskId, log ++ [.read TaskId])

/-- The accesses of `Sch_AddTask` to the array, in order: the tests of the search
loop and then the stores to `Config[TaskId]`; together with the `TaskId` the
search ended at. -/
def Sch_AddTask_accesses (beyond : Nat → Option Nat) (Config : Table) :
    Except Fault (Nat × List Access) :=
  match Sch_AddTask_scan_accesses beyond 256 0 Config [] with
  | .error e => .error e
  | .ok (TaskId, log) => .ok (TaskId, log ++ [.write TaskId])

/-- One call of the interface of the scheduler. -/
inductive Op where
  | AddTask (Function : Option Nat) (Delay Period : Nat)
  | DeleteTask (TaskId : Nat)
  | Update
  | DispatchTasks
  deriving DecidableEq

/-- The table after one call of the interface. -/
def Op.apply (v : Variant) (Config : Table) : Op → Except Fault Table
  | .AddTask Function Delay Period =>
    match Sch_AddTask v Config Function Delay Period with
    | .ok (_, Config') => .ok Config'
    | .error e => .error e
  | .DeleteTask TaskId => Sch_DeleteTask Config TaskId
  | .Update =>
    match Sch_Update v Config with
    | .ok (_, Config') => .ok Config'
    | .error e => .error e
  | .DispatchTasks =>
    match Sch_DispatchTasks Config with
    | .ok (_, Config') => .ok Config'
    | .error e => .error e

/-- The table after a sequence of calls of the interface. -/
def runOps (v : Variant) : Table → List Op → Except Fault Table
  | Config, [] => .ok Config
  | Config, op :: ops =>
    match op.apply v Config with
    | .ok Config' => runOps v Config' ops
    | .error e => .error e

/-- The values of the counter at which the body of
`for (Index = 0; Index < SCH_MAX_TASKS; Index++)` runs, `Index` being a `uint8_t`:
the loop header shared by `Sch_Init`, `Sch_Update` and `Sch_DispatchTasks`. -/
def scanIndices (N : Nat) : Nat → Nat → List Nat → Except Fault (List Nat)
  | 0, _, _ => .error .Diverges
  | fuel + 1, Index, seen =>
    if Index < N then
      scanIndices N fuel (incr8 Index) (seen ++ [Index])
    else
      .ok seen

/-- Conversion of an integer to a 32-bit `int` (reduction modulo `2 ^ 32` into
`-2 ^ 31 .. 2 ^ 31 - 1`). -/
def wrapInt32 (x : Int) : Int :=
  (x + 2 ^ 31) % 2 ^ 32 - 2 ^ 31

/-- The fields of `struct timespec` (`time_t` and `long`). -/
structure timespec where
  tv_sec : Int
  tv_nsec : Int
  deriving DecidableEq

/-- The fields of `struct itimerspec`: repeat interval and initial expiry. -/
structure itimerspec where
  it_interval : timespec
  it_value : timespec
  deriving DecidableEq

/-- The timer setting that `Sch_Start` passes to `timer_settime`. `TICK` is the
`int` constant of `sch_cfg.h`; `TICK * 1000000` is a product of two `int`s and is
reduced to 32 bits, which is what a compiler makes of the constant when it does
not fit. -/
def Sch_Start (TICK : Int) : itimerspec :=
  let it_value : timespec := { tv_sec := 0, tv_nsec := wrapInt32 (TICK * 1000000) }
  { it_value := it_value,
    it_interval := { tv_sec := it_value.tv_sec, tv_nsec := it_value.tv_nsec } }

/-! ## Specification functions -/

/-- Slot `i` exists and is free: its `Task` is `NULL`. -/
def slotFree (Config : Table) (i : Nat) : Bool :=
  match Config[i]? with
  | some s => s.Task.isNone
  | none => false

/-- What one pass of the loop of `Sch_Update` does to one slot. -/
def Sch_Update_slot (v : Variant) (s : TaskConfig_t) : TaskConfig_t :=
  if s.Task ≠ none then
    if s.Delay = 0 then
      { s with RunMe := v.wrapRunMe (s.RunMe + 1),
               Delay := (s.Period + 2 ^ 32 - 1) % 2 ^ 32 % 2 ^ v.delayBits }
    else { s with Delay := s.Delay - 1 }
  else s

/-- What one pass of the loop of `Sch_DispatchTasks` does to one slot. -/
def Sch_DispatchTasks_slot (s : TaskConfig_t) : TaskConfig_t :=
  match s.Task with
  | some _ => if s.RunMe > 0 then { s with RunMe := s.RunMe - 1 } else s
  | none => s

/-- The call that one pass of the loop of `Sch_DispatchTasks` makes for slot `i`. -/
def Sch_DispatchTasks_call (i : Nat) (s : TaskConfig_t) : List Call :=
  match s.Task with
  | some f => if s.RunMe > 0 then [⟨i, f⟩] else []
  | none => []

/-- The calls for the slots of `l`, which sit at the indices `i`, `i + 1`, ... -/
def callsFrom : Nat → List TaskConfig_t → List Call
  | _, [] => []
  | i, s :: rest => Sch_DispatchTasks_call i s ++ callsFrom (i + 1) rest

/-- The number of due ticks among the ticks `0, ..., n - 1` of a task added with
initial delay `d` and period `p`: `0` if `n ≤ d`, otherwise `(n - 1 - d) / p + 1`. -/
def dueCount (d p n : Nat) : Nat :=
  if n ≤ d then 0 else (n - 1 - d) / p + 1

/-- The value of `Delay` after `n` ticks of a task added with `(d, p)`. -/
def delayAfter (d p n : Nat) : Nat :=
  if n ≤ d then d - n else p - 1 - (n - 1 - d) % p

/-- The slot of `src/sch.c` after `n` ticks without dispatch, for a task `f` added
with `(d, p)`: `RunMe` holds the number of due ticks converted to `int8_t`. -/
def slotAfterTicks (f d p n : Nat) : TaskConfig_t :=
  { Task := some f, Delay := delayAfter d p n, Period := p,
    RunMe := Variant.wrapRunMe .posix (dueCount d p n) }

/-- The table is not full: some slot has `Task == NULL`. -/
def hasFreeSlot (Config : Table) : Bool :=
  Config.any (fun s => s.Task.isNone)

/-- The calls considered after `Sch_AddTask` returned `id`: an add on a table that
is not full, a delete of another id of the table, a tick, a dispatch. -/
def Op.keeps (id : Nat) (Config : Table) : Op → Bool
  | .AddTask _ _ _ => hasFreeSlot Config
  | .DeleteTask TaskId => decide (TaskId ≠ id) && decide (TaskId < SCH_MAX_TASKS Config)
  | .Update => true
  | .DispatchTasks => true

/-- The calls considered from `Sch_Init` on: an add of a task that is not `NULL` on
a table that is not full, a delete of an id of the table, a tick, a dispatch. -/
def Op.valid (Config : Table) : Op → Bool
  | .AddTask Function _ _ => Function.isSome && hasFreeSlot Config
  | .DeleteTask TaskId => decide (TaskId < SCH_MAX_TASKS Config)
  | .Update => true
  | .DispatchTasks => true

/-- Every call of the sequence meets `pre` in the table it is made on. -/
def admissible (pre : Table → Op → Bool) (v : Variant) : Table → List Op → Bool
  | _, [] => true
  | Config, op :: ops =>
    pre Config op &&
      (match op.apply v Config with
       | .ok Config' => admissible pre v Config' ops
       | .error _ => true)

/-- What one call of `Sch_Update` does to one slot: the accounting, and in
`src/template/sch.c` the dispatch that follows it. -/
def Sch_Update_tick (v : Variant) (s : TaskConfig_t) : TaskConfig_t :=
  match v with
  | .posix => Sch_Update_slot .posix s
  | .template => Sch_DispatchTasks_slot (Sch_Update_slot .template s)

/-! ## The loops in closed form -/

theorem incr8_of_lt {k : Nat} (h : k < 255) : incr8 k = k + 1 := by
  unfold incr8; omega

theorem lt_length_of_getElem? {Config : Table} {k : Nat} {s : TaskConfig_t}
    (h : Config[k]? = some s) : k < Config.length := by
  obtain ⟨hk, _⟩ := List.getElem?_eq_some.mp h
  exact hk

theorem set_getElem?_self (Config : Table) (k : Nat) (s : TaskConfig_t)
    (h : Config[k]? = some s) : Config.set k s = Config := by
  apply List.ext_getElem?
  intro j
  by_cases hj : k = j
  · subst hj; rw [List.getElem?_set]; simp [h]
    exact lt_length_of_getElem? h
  · simp [List.getElem?_set_ne hj]

/-- A loop over the table that rewrites slot `k` with `g` and moves on to `k + 1`
maps `g` over the slots from `k` on, provided the capacity fits the counter. -/
theorem table_loop_spec (L : Nat → Nat → Table → Except Fault Table)
    (g : TaskConfig_t → TaskConfig_t)
    (hstep : ∀ fuel k Config s, Config[k]? = some s →
      L (fuel + 1) k Config = L fuel (incr8 k) (Config.set k (g s)))
    (hexit : ∀ fuel k Config, ¬ k < Config.length → L (fuel + 1) k Config = .ok Config) :
    ∀ (m fuel k : Nat) (Config : Table),
      Config.length ≤ 255 → k + m = Config.length → m < fuel →
      L fuel k Config = .ok (Config.take k ++ (Config.drop k).map g) := by
  intro m
  induction m with
  | zero =>
    intro fuel k Config _ hk hf
    obtain ⟨f, rfl⟩ : ∃ f, fuel = f + 1 := ⟨fuel - 1, by omega⟩
    rw [hexit f k Config (by omega), List.drop_eq_nil_of_le (by omega),
      List.take_of_length_le (by omega)]
    simp
  | succ m ih =>
    intro fuel k Config hN hk hf
    obtain ⟨f, rfl⟩ : ∃ f, fuel = f + 1 := ⟨fuel - 1, by omega⟩
    have hlt : k < Config.length := by omega
    have hs : Config[k]? = some Config[k] := List.getElem?_eq_getElem hlt
    rw [hstep f k Config _ hs, incr8_of_lt (by omega),
      ih f (k + 1) _ (by simpa using hN) (by simp; omega) (by omega)]
    rw [List.drop_set_of_lt _ _ (Nat.lt_succ_self k), List.drop_eq_getElem_cons hlt]
    rw [List.take_succ, List.getElem?_set_self hlt, List.set_take,
      List.set_eq_of_length_le (by simp)]
    simp only [List.map_cons, List.append_assoc, Option.toList, List.cons_append,
      List.nil_append]

theorem table_loop_eq_map (L : Nat → Nat → Table → Except Fault Table)
    (g : TaskConfig_t → TaskConfig_t)
    (hstep : ∀ fuel k Config s, Config[k]? = some s →
      L (fuel + 1) k Config = L fuel (incr8 k) (Config.set k (g s)))
    (hexit : ∀ fuel k Config, ¬ k < Config.length → L (fuel + 1) k Config = .ok Config)
    (Config : Table) (hN : Config.length ≤ 255) :
    L 256 0 Config = .ok (Config.map g) := by
  rw [table_loop_spec L g hstep hexit Config.length 256 0 Config hN (by simp) (by omega)]
  simp

theorem Sch_Update_loop_step (v : Variant) (fuel k : Nat) (Config : Table) (s : TaskConfig_t)
    (h : Config[k]? = some s) :
    Sch_Update_loop v (fuel + 1) k Config
      = Sch_Update_loop v fuel (incr8 k) (Config.set k (Sch_Update_slot v s)) := by
  have hk : k < Config.length := lt_length_of_getElem? h
  rw [Sch_Update_loop]
  unfold Sch_Update_slot
  simp only [SCH_MAX_TASKS, hk, if_true, h]
  split
  · split <;> rfl
  · rw [set_getElem?_self Config k s h]

theorem Sch_Update_loop_eq_map (v : Variant) (Config : Table) (hN : Config.length ≤ 255) :
    Sch_Update_loop v 256 0 Config = .ok (Config.map (Sch_Update_slot v)) := by
  refine table_loop_eq_map (Sch_Update_loop v) (Sch_Update_slot v)
    (Sch_Update_loop_step v) ?_ Config hN
  intro fuel k C hk
  rw [Sch_Update_loop]
  simp only [SCH_MAX_TASKS, hk, if_false]

theorem Sch_Init_loop_step (fuel k : Nat) (Config : Table) (s : TaskConfig_t)
    (h : Config[k]? = some s) :
    Sch_Init_loop (fuel + 1) k Config
      = Sch_Init_loop fuel (incr8 k) (Config.set k ((fun _ => freeSlot) s)) := by
  have hk : k < Config.length := lt_length_of_getElem? h
  rw [Sch_Init_loop]
  simp only [SCH_MAX_TASKS, hk, if_true, Sch_DeleteTask]

theorem Sch_Init_eq_map (Config : Table) (hN : Config.length ≤ 255) :
    Sch_Init Config = .ok (Config.map (fun _ => freeSlot)) := by
  refine table_loop_eq_map Sch_Init_loop (fun _ => freeSlot) Sch_Init_loop_step ?_ Config hN
  intro fuel k C hk
  rw [Sch_Init_loop]
  simp only [SCH_MAX_TASKS, hk, if_false]

theorem Sch_DispatchTasks_loop_step (fuel k : Nat) (Config : Table) (calls : List Call)
    (s : TaskConfig_t) (h : Config[k]? = some s) :
    Sch_DispatchTasks_loop (fuel + 1) k Config calls
      = Sch_DispatchTasks_loop fuel (incr8 k) (Config.set k (Sch_DispatchTasks_slot s))
          (calls ++ Sch_DispatchTasks_call k s) := by
  have hk : k < Config.length := lt_length_of_getElem? h
  rw [Sch_DispatchTasks_loop]
  unfold Sch_DispatchTasks_slot Sch_DispatchTasks_call
  simp only [SCH_MAX_TASKS, hk, if_true, h]
  split
  · split
    · rfl
    · rw [set_getElem?_self Config k s h, List.append_nil]
  · rw [set_getElem?_self Config k s h, List.append_nil]

theorem Sch_DispatchTasks_loop_spec :
    ∀ (m fuel k : Nat) (Config : Table) (calls : List Call),
      Config.length ≤ 255 → k + m = Config.length → m < fuel →
      Sch_DispatchTasks_loop fuel k Config calls
        = .ok (calls ++ callsFrom k (Config.drop k),
               Config.take k ++ (Config.drop k).map Sch_DispatchTasks_slot) := by
  intro m
  induction m with
  | zero =>
    intro fuel k Config calls _ hk hf
    obtain ⟨f, rfl⟩ : ∃ f, fuel = f + 1 := ⟨fuel - 1, by omega⟩
    rw [Sch_DispatchTasks_loop]
    have h1 : ¬ k < Config.length := by omega
    have h2 : Config.drop k = [] := List.drop_eq_nil_of_le (by omega)
    have h3 : Config.take k = Config := List.take_of_length_le (by omega)
    simp [SCH_MAX_TASKS, h1, h2, h3, callsFrom]
  | succ m ih =>
    intro fuel k Config calls hN hk hf
    obtain ⟨f, rfl⟩ : ∃ f, fuel = f + 1 := ⟨fuel - 1, by omega⟩
    have hlt : k < Config.length := by omega
    have hs : Config[k]? = some Config[k] := List.getElem?_eq_getElem hlt
    rw [Sch_DispatchTasks_loop_step f k Config calls _ hs, incr8_of_lt (by omega),
      ih f (k + 1) _ _ (by simpa using hN) (by simp; omega) (by omega)]
    rw [List.drop_set_of_lt _ _ (Nat.lt_succ_self k), List.drop_eq_getElem_cons hlt]
    simp only [callsFrom, List.append_assoc, List.map_cons]
    congr 2
    rw [List.take_succ, List.getElem?_set_self hlt, List.set_take,
      List.set_eq_of_length_le (by simp)]
    simp

theorem Sch_DispatchTasks_eq (Config : Table) (hN : Config.length ≤ 255) :
    Sch_DispatchTasks Config
      = .ok (callsFrom 0 Config, Config.map Sch_DispatchTasks_slot) := by
  unfold Sch_DispatchTasks
  rw [Sch_DispatchTasks_loop_spec Config.length 256 0 Config [] hN (by simp) (by omega)]
  simp

theorem Sch_Update_posix_eq (Config : Table) (hN : Config.length ≤ 255) :
    Sch_Update .posix Config = .ok ([], Config.map (Sch_Update_slot .posix)) := by
  unfold Sch_Update
  rw [Sch_Update_loop_eq_map .posix Config hN]

/-! ## The task table: add, delete, initialise -/


theorem slotFree_true_iff {Config : Table} {i : Nat} :
    slotFree Config i = true ↔ ∃ s, Config[i]? = some s ∧ s.Task = none := by
  unfold slotFree
  cases h : Config[i]? with
  | none => simp
  | some s => simp [Option.isNone_iff_eq_none]

theorem slotFree_false_iff {Config : Table} {i : Nat} (hi : i < Config.length) :
    slotFree Config i = false ↔ ∃ s, Config[i]? = some s ∧ s.Task ≠ none := by
  unfold slotFree
  rw [List.getElem?_eq_getElem hi]
  cases h : (Config[i]).Task <;> simp [h]

theorem Sch_AddTask_scan_spec :
    ∀ (m fuel k : Nat) (Config : Table) (i : Nat), k + m = i → m < fuel → i < 256 →
      slotFree Config i = true → (∀ j, k ≤ j → j < i → slotFree Config j = false) →
      Sch_AddTask_scan fuel k Config = .ok i := by
  intro m
  induction m with
  | zero =>
    intro fuel k Config i hk hf _ hfree _
    obtain ⟨f, rfl⟩ : ∃ f, fuel = f + 1 := ⟨fuel - 1, by omega⟩
    obtain rfl : k = i := by omega
    obtain ⟨s, hs, hnone⟩ := slotFree_true_iff.mp hfree
    rw [Sch_AddTask_scan]
    simp [hs, hnone]
  | succ m ih =>
    intro fuel k Config i hk hf hi hfree hocc
    obtain ⟨f, rfl⟩ : ∃ f, fuel = f + 1 := ⟨fuel - 1, by omega⟩
    obtain ⟨s, hs, _⟩ := slotFree_true_iff.mp hfree
    have hlen : i < Config.length := lt_length_of_getElem? hs
    have hklt : k < Config.length := by omega
    obtain ⟨t, ht, hsome⟩ := (slotFree_false_iff hklt).mp (hocc k (Nat.le_refl k) (by omega))
    rw [Sch_AddTask_scan]
    simp only [ht, SCH_MAX_TASKS, hklt, hsome, ne_eq, not_false_eq_true, and_self, if_true]
    rw [incr8_of_lt (by omega)]
    exact ih f (k + 1) Config i (by omega) (by omega) hi hfree
      (fun j hj1 hj2 => hocc j (by omega) hj2)

theorem Sch_AddTask_scan_full :
    ∀ (m fuel k : Nat) (Config : Table), k + m = Config.length → m < fuel →
      Config.length ≤ 255 → (∀ j, k ≤ j → j < Config.length → slotFree Config j = false) →
      Sch_AddTask_scan fuel k Config = .error (.OutOfBounds Config.length) := by
  intro m
  induction m with
  | zero =>
    intro fuel k Config hk hf _ _
    obtain ⟨f, rfl⟩ : ∃ f, fuel = f + 1 := ⟨fuel - 1, by omega⟩
    obtain rfl : k = Config.length := by omega
    rw [Sch_AddTask_scan]
    simp
  | succ m ih =>
    intro fuel k Config hk hf hN hocc
    obtain ⟨f, rfl⟩ : ∃ f, fuel = f + 1 := ⟨fuel - 1, by omega⟩
    have hklt : k < Config.length := by omega
    obtain ⟨t, ht, hsome⟩ := (slotFree_false_iff hklt).mp (hocc k (Nat.le_refl k) hklt)
    rw [Sch_AddTask_scan]
    simp only [ht, SCH_MAX_TASKS, hklt, hsome, ne_eq, not_false_eq_true, and_self, if_true]
    rw [incr8_of_lt (by omega)]
    exact ih f (k + 1) Config (by omega) (by omega) hN (fun j hj1 hj2 => hocc j (by omega) hj2)

theorem Sch_AddTask_eq (v : Variant) (Config : Table) (Function : Option Nat) (d p i : Nat)
    (hi : i < 256) (hfree : slotFree Config i = true)
    (hlow : ∀ j, j < i → slotFree Config j = false) :
    Sch_AddTask v Config Function d p = .ok (i, Config.set i
      { Task := Function, Delay := d % 2 ^ v.delayBits, Period := p, RunMe := 0 }) := by
  obtain ⟨s, hs, _⟩ := slotFree_true_iff.mp hfree
  have hlen : i < Config.length := lt_length_of_getElem? hs
  unfold Sch_AddTask
  rw [Sch_AddTask_scan_spec i 256 0 Config i (by omega) (by omega) hi hfree
    (fun j _ hj => hlow j hj)]
  simp [SCH_MAX_TASKS, hlen]

theorem exists_lowest_free (Config : Table) (h : ∃ j, slotFree Config j = true) :
    ∃ i, slotFree Config i = true ∧ ∀ j, j < i → slotFree Config j = false := by
  classical
  refine ⟨Nat.find h, Nat.find_spec h, ?_⟩
  intro j hj
  have := Nat.find_min h hj
  simpa using this

theorem slotFree_lt_length {Config : Table} {i : Nat} (h : slotFree Config i = true) :
    i < Config.length := by
  obtain ⟨s, hs, _⟩ := slotFree_true_iff.mp h
  exact lt_length_of_getElem? hs

/-- C1 (amended): on a table with a free slot `Sch_AddTask` returns the lowest
index `i` whose slot is free; afterwards slot `i` holds exactly
`(Function, Delay = d, Period = p, RunMe = 0)` and every other slot is unchanged.
This holds for every delay that fits the field `Delay` of the variant: every
`uint32_t` delay in `src/sch.c`, delays below `2 ^ 16` in `src/template/sch.c`. -/
theorem C1_Sch_AddTask_first_fit (v : Variant) (Config : Table) (Function : Option Nat)
    (d p : Nat) (hcap : SCH_MAX_TASKS Config ≤ 255)
    (hfree : ∃ j, slotFree Config j = true) (hd : d < 2 ^ v.delayBits) :
    ∃ i Config', Sch_AddTask v Config Function d p = .ok (i, Config') ∧
      slotFree Config i = true ∧ (∀ j, j < i → slotFree Config j = false) ∧
      Config'[i]? = some { Task := Function, Delay := d, Period := p, RunMe := 0 } ∧
      SCH_MAX_TASKS Config' = SCH_MAX_TASKS Config ∧
      ∀ j, j ≠ i → Config'[j]? = Config[j]? := by
  obtain ⟨i, hi, hlow⟩ := exists_lowest_free Config hfree
  have hlen := slotFree_lt_length hi
  refine ⟨i, _, Sch_AddTask_eq v Config Function d p i (by simp [SCH_MAX_TASKS] at hcap; omega) hi hlow,
    hi, hlow, ?_, ?_, ?_⟩
  · rw [List.getElem?_set_self hlen, Nat.mod_eq_of_lt hd]
  · simp [SCH_MAX_TASKS]
  · intro j hj
    rw [List.getElem?_set_ne (Ne.symm hj)]


/-- C1 (counterexample): in `src/template/sch.c` the field `Delay` is a
`uint16_t`; adding a task with the `uint32_t` delay `65536` to a free table
leaves `Delay = 0` in the slot, not `65536`. -/
theorem C1_template_truncates_delay :
    slotFree [freeSlot] 0 = true ∧ 65536 < 2 ^ 32 ∧
    Sch_AddTask .template [freeSlot] (some 1) 65536 1
      = .ok (0, [{ Task := some 1, Delay := 0, Period := 1, RunMe := 0 }]) ∧
    ¬ ∃ Config', Sch_AddTask .template [freeSlot] (some 1) 65536 1 = .ok (0, Config') ∧
        Config'[0]? = some { Task := some 1, Delay := 65536, Period := 1, RunMe := 0 } := by
  have h : Sch_AddTask .template [freeSlot] (some 1) 65536 1
      = .ok (0, [{ Task := some 1, Delay := 0, Period := 1, RunMe := 0 }]) := by decide
  refine ⟨by decide, by decide, h, ?_⟩
  rintro ⟨Config', h1, h2⟩
  rw [h] at h1
  injection h1 with h1
  injection h1 with _ h1
  subst h1
  revert h2
  decide

/-- C1, an instance: a two-slot table of `src/sch.c` whose slot 0 is occupied,
with a delay above `2 ^ 16`. -/
theorem C1_witness :
    ∃ i Config', Sch_AddTask .posix [⟨some 1, 3, 4, 2⟩, freeSlot] (some 7) 70000 100 = .ok (i, Config') ∧
      slotFree [⟨some 1, 3, 4, 2⟩, freeSlot] i = true ∧
      (∀ j, j < i → slotFree [⟨some 1, 3, 4, 2⟩, freeSlot] j = false) ∧
      Config'[i]? = some { Task := some 7, Delay := 70000, Period := 100, RunMe := 0 } ∧
      SCH_MAX_TASKS Config' = SCH_MAX_TASKS [⟨some 1, 3, 4, 2⟩, freeSlot] ∧
      ∀ j, j ≠ i → Config'[j]? = ([⟨some 1, 3, 4, 2⟩, freeSlot] : Table)[j]? :=
  C1_Sch_AddTask_first_fit .posix [⟨some 1, 3, 4, 2⟩, freeSlot] (some 7) 70000 100
    (by decide) ⟨1, by decide⟩ (by decide)

/-- C2: on a table whose slots are all occupied `Sch_AddTask` does not report a
full table: its search loop reads `Config[SCH_MAX_TASKS]`, one past the end of
the array, so the call has no defined result. -/
theorem C2_Sch_AddTask_full_table (v : Variant) (Config : Table) (Function : Option Nat)
    (d p : Nat) (hcap : SCH_MAX_TASKS Config ≤ 255)
    (hfull : ∀ j, j < SCH_MAX_TASKS Config → slotFree Config j = false) :
    Sch_AddTask v Config Function d p = .error (.OutOfBounds (SCH_MAX_TASKS Config)) := by
  unfold Sch_AddTask
  rw [Sch_AddTask_scan_full Config.length 256 0 Config (by simp) (by simp [SCH_MAX_TASKS] at hcap; omega) hcap
    (fun j _ hj => hfull j hj)]

/-- C2, the scenario of capacity 1: after `Sch_Init` the first add takes slot 0;
the second add reads `Config[1]`, outside the one-element array. -/
theorem C2_capacity_one_add_twice :
    Sch_Init [⟨some 9, 5, 6, 7⟩] = .ok [freeSlot] ∧
    Sch_AddTask .posix [freeSlot] (some 1) 0 100 = .ok (0, [⟨some 1, 0, 100, 0⟩]) ∧
    Sch_AddTask .posix [⟨some 1, 0, 100, 0⟩] (some 2) 0 50 = .error (.OutOfBounds 1) :=
  ⟨by decide, by decide,
    C2_Sch_AddTask_full_table .posix [⟨some 1, 0, 100, 0⟩] (some 2) 0 50 (by decide) (by decide)⟩

theorem slotFree_set_self (Config : Table) (i : Nat) (hi : i < Config.length) :
    slotFree (Config.set i freeSlot) i = true := by
  unfold slotFree
  rw [List.getElem?_set_self hi]
  rfl

theorem slotFree_set_ne (Config : Table) (i j : Nat) (s : TaskConfig_t) (h : i ≠ j) :
    slotFree (Config.set i s) j = slotFree Config j := by
  unfold slotFree
  rw [List.getElem?_set_ne h]

/-- C8: after `Sch_DeleteTask(id)` with `id` in range, the next `Sch_AddTask`
returns an index `i` whose slot was free immediately before that add (and, when
`i` differs from `id`, already before the delete); `i ≤ id`, and `i = id` when
every slot below `id` is occupied. -/
theorem C8_Sch_AddTask_after_delete (v : Variant) (Config : Table) (id : Nat)
    (Function : Option Nat) (d p : Nat)
    (hid : id < SCH_MAX_TASKS Config) (h8 : id < 256) :
    ∃ Config1 i Config2, Sch_DeleteTask Config id = .ok Config1 ∧
      Sch_AddTask v Config1 Function d p = .ok (i, Config2) ∧
      slotFree Config1 i = true ∧
      (i ≠ id → slotFree Config i = true) ∧
      i ≤ id ∧
      ((∀ j, j < id → slotFree Config j = false) → i = id) := by
  have hfree : slotFree (Config.set id freeSlot) id = true := slotFree_set_self Config id hid
  obtain ⟨i, hi, hlow⟩ := exists_lowest_free (Config.set id freeSlot) ⟨id, hfree⟩
  have hle : i ≤ id := by
    by_contra hc
    have := hlow id (by omega)
    rw [hfree] at this
    exact Bool.noConfusion this
  refine ⟨Config.set id freeSlot, i, _, ?_,
    Sch_AddTask_eq v _ Function d p i (by omega) hi hlow, hi, ?_, hle, ?_⟩
  · simp [Sch_DeleteTask, hid]
  · intro hne
    rw [← slotFree_set_ne Config id i freeSlot (Ne.symm hne)]
    exact hi
  · intro hocc
    by_contra hne
    have h1 : i < id := by omega
    have h2 := hocc i h1
    rw [← slotFree_set_ne Config id i freeSlot (Ne.symm hne), hi] at h2
    exact Bool.noConfusion h2

/-- C8, an instance: a full two-slot table, delete slot 1, add again. -/
theorem C8_witness :
    ∃ Config1 i Config2,
      Sch_DeleteTask [⟨some 1, 3, 4, 2⟩, ⟨some 2, 0, 5, 1⟩] 1 = .ok Config1 ∧
      Sch_AddTask .posix Config1 (some 7) 10 20 = .ok (i, Config2) ∧
      slotFree Config1 i = true ∧
      (i ≠ 1 → slotFree [⟨some 1, 3, 4, 2⟩, ⟨some 2, 0, 5, 1⟩] i = true) ∧
      i ≤ 1 ∧
      ((∀ j, j < 1 → slotFree [⟨some 1, 3, 4, 2⟩, ⟨some 2, 0, 5, 1⟩] j = false) → i = 1) :=
  C8_Sch_AddTask_after_delete .posix [⟨some 1, 3, 4, 2⟩, ⟨some 2, 0, 5, 1⟩] 1 (some 7) 10 20
    (by decide) (by decide)

/-- C9: the table-clearing loop of `Sch_Init` leaves every one of the
`SCH_MAX_TASKS` slots free, with `Delay`, `Period` and `RunMe` all `0`, whatever the
prior table, and running it again gives the same table. -/
theorem C9_Sch_Init_clears_idempotent (Config : Table) (hcap : SCH_MAX_TASKS Config ≤ 255) :
    ∃ Config', Sch_Init Config = .ok Config' ∧
      SCH_MAX_TASKS Config' = SCH_MAX_TASKS Config ∧
      (∀ i, i < SCH_MAX_TASKS Config →
        Config'[i]? = some { Task := none, Delay := 0, Period := 0, RunMe := 0 }) ∧
      Sch_Init Config' = .ok Config' := by
  refine ⟨Config.map (fun _ => freeSlot), Sch_Init_eq_map Config hcap, by simp [SCH_MAX_TASKS], ?_, ?_⟩
  · intro i hi
    simp only [SCH_MAX_TASKS] at hi
    rw [List.getElem?_map, List.getElem?_eq_getElem hi]
    rfl
  · rw [Sch_Init_eq_map _ (by simpa [SCH_MAX_TASKS] using hcap)]
    simp

/-- C9, an instance: a full two-slot table. -/
theorem C9_witness :
    ∃ Config', Sch_Init [⟨some 1, 3, 4, 2⟩, ⟨some 2, 0, 5, 1⟩] = .ok Config' ∧
      SCH_MAX_TASKS Config' = SCH_MAX_TASKS [⟨some 1, 3, 4, 2⟩, ⟨some 2, 0, 5, 1⟩] ∧
      (∀ i, i < SCH_MAX_TASKS [⟨some 1, 3, 4, 2⟩, ⟨some 2, 0, 5, 1⟩] →
        Config'[i]? = some { Task := none, Delay := 0, Period := 0, RunMe := 0 }) ∧
      Sch_Init Config' = .ok Config' :=
  C9_Sch_Init_clears_idempotent [⟨some 1, 3, 4, 2⟩, ⟨some 2, 0, 5, 1⟩] (by decide)

/-- C10: `Sch_DeleteTask(id)` with `id` in range makes slot `id` free with
`Delay`, `Period` and `RunMe` all `0` whatever it held, leaves every other slot
unchanged, and deleting the same `id` again changes nothing. -/
theorem C10_Sch_DeleteTask_frame (Config : Table) (id : Nat) (hid : id < SCH_MAX_TASKS Config) :
    ∃ Config', Sch_DeleteTask Config id = .ok Config' ∧
      Config'[id]? = some { Task := none, Delay := 0, Period := 0, RunMe := 0 } ∧
      slotFree Config' id = true ∧
      SCH_MAX_TASKS Config' = SCH_MAX_TASKS Config ∧
      (∀ j, j ≠ id → Config'[j]? = Config[j]?) ∧
      Sch_DeleteTask Config' id = .ok Config' := by
  refine ⟨Config.set id freeSlot, by simp [Sch_DeleteTask, hid], ?_,
    slotFree_set_self Config id hid, by simp [SCH_MAX_TASKS], ?_, ?_⟩
  · rw [List.getElem?_set_self hid]; rfl
  · intro j hj
    rw [List.getElem?_set_ne (Ne.symm hj)]
  · simp [Sch_DeleteTask, hid]

/-- C10, an instance: delete slot 0 of a full two-slot table. -/
theorem C10_witness :
    ∃ Config', Sch_DeleteTask [⟨some 1, 3, 4, 2⟩, ⟨some 2, 0, 5, 1⟩] 0 = .ok Config' ∧
      Config'[0]? = some { Task := none, Delay := 0, Period := 0, RunMe := 0 } ∧
      slotFree Config' 0 = true ∧
      SCH_MAX_TASKS Config' = SCH_MAX_TASKS [⟨some 1, 3, 4, 2⟩, ⟨some 2, 0, 5, 1⟩] ∧
      (∀ j, j ≠ 0 → Config'[j]? = ([⟨some 1, 3, 4, 2⟩, ⟨some 2, 0, 5, 1⟩] : Table)[j]?) ∧
      Sch_DeleteTask Config' 0 = .ok Config' :=
  C10_Sch_DeleteTask_frame [⟨some 1, 3, 4, 2⟩, ⟨some 2, 0, 5, 1⟩] 0 (by decide)


/-! ## The dispatcher -/

theorem callsFrom_filter (i : Nat) :
    ∀ (l : List TaskConfig_t) (k : Nat),
      (callsFrom k l).filter (fun c => decide (c.TaskId = i))
        = if k ≤ i then
            (match l[i - k]? with
             | some s => Sch_DispatchTasks_call i s
             | none => [])
          else [] := by
  intro l
  induction l with
  | nil => intro k; simp [callsFrom]
  | cons s rest ih =>
    intro k
    rw [callsFrom, List.filter_append, ih (k + 1)]
    have hcall : (Sch_DispatchTasks_call k s).filter (fun c => decide (c.TaskId = i))
        = if k = i then Sch_DispatchTasks_call i s else [] := by
      unfold Sch_DispatchTasks_call
      by_cases hki : k = i
      · subst hki
        cases s.Task with
        | none => simp
        | some f => by_cases hR : s.RunMe > 0 <;> simp [hR]
      · cases s.Task with
        | none => simp [hki]
        | some f => by_cases hR : s.RunMe > 0 <;> simp [hR, hki]
    rw [hcall]
    by_cases h1 : k = i
    · subst h1
      simp
    · by_cases h2 : k + 1 ≤ i
      · have h3 : i - k = (i - (k + 1)) + 1 := by omega
        simp [h1, h2, show k ≤ i by omega, h3]
      · simp [h1, h2, show ¬ k ≤ i by omega]

theorem callsFrom_pairwise :
    ∀ (l : List TaskConfig_t) (k : Nat),
      (callsFrom k l).Pairwise (fun a b => a.TaskId < b.TaskId) ∧
      ∀ c ∈ callsFrom k l, k ≤ c.TaskId := by
  intro l
  induction l with
  | nil => intro k; simp [callsFrom]
  | cons s rest ih =>
    intro k
    obtain ⟨hp, hge⟩ := ih (k + 1)
    have hcall : ∀ c ∈ Sch_DispatchTasks_call k s, c.TaskId = k := by
      intro c hc
      unfold Sch_DispatchTasks_call at hc
      cases hT : s.Task with
      | none => simp [hT] at hc
      | some f =>
        simp only [hT] at hc
        split at hc
        · simp at hc; rw [hc]
        · simp at hc
    have hcall2 : (Sch_DispatchTasks_call k s).Pairwise (fun a b => a.TaskId < b.TaskId) := by
      unfold Sch_DispatchTasks_call
      cases s.Task with
      | none => simp
      | some f => simp only []; split <;> simp
    rw [callsFrom]
    refine ⟨List.pairwise_append.mpr ⟨hcall2, hp, ?_⟩, ?_⟩
    · intro a ha b hb
      have := hcall a ha
      have := hge b hb
      omega
    · intro c hc
      rcases List.mem_append.mp hc with h | h
      · have := hcall c h; omega
      · have := hge c h; omega

theorem sublist_pair_of_pairwise (a b : Call) :
    ∀ (l : List Call), l.Pairwise (fun x y => x.TaskId < y.TaskId) → a ∈ l → b ∈ l →
      a.TaskId < b.TaskId → [a, b].Sublist l := by
  intro l
  induction l with
  | nil => intro _ ha; simp at ha
  | cons x xs ih =>
    intro hp ha hb hlt
    obtain ⟨hx, hxs⟩ := List.pairwise_cons.mp hp
    rcases List.mem_cons.mp ha with ha1 | ha1
    · rcases List.mem_cons.mp hb with hb1 | hb1
      · rw [ha1, hb1] at hlt; omega
      · rw [ha1]
        exact List.Sublist.cons₂ _ (List.singleton_sublist.mpr hb1)
    · rcases List.mem_cons.mp hb with hb1 | hb1
      · have := hx a ha1
        rw [hb1] at hlt
        omega
      · exact List.Sublist.cons _ (ih hxs ha1 hb1 hlt)

theorem Sch_DispatchTasks_slot_due (s : TaskConfig_t) (f : Nat) (hT : s.Task = some f)
    (hR : s.RunMe > 0) : Sch_DispatchTasks_slot s = { s with RunMe := s.RunMe - 1 } := by
  unfold Sch_DispatchTasks_slot
  simp [hT, hR]

theorem Sch_DispatchTasks_slot_idle (s : TaskConfig_t) (h : s.Task = none ∨ s.RunMe ≤ 0) :
    Sch_DispatchTasks_slot s = s := by
  unfold Sch_DispatchTasks_slot
  cases hT : s.Task with
  | none => rfl
  | some f =>
    rcases h with h | h
    · rw [hT] at h; cases h
    · simp [show ¬ s.RunMe > 0 by omega]

theorem Sch_DispatchTasks_call_due (i : Nat) (s : TaskConfig_t) (f : Nat) (hT : s.Task = some f)
    (hR : s.RunMe > 0) : Sch_DispatchTasks_call i s = [⟨i, f⟩] := by
  unfold Sch_DispatchTasks_call
  simp [hT, hR]

theorem Sch_DispatchTasks_call_idle (i : Nat) (s : TaskConfig_t)
    (h : s.Task = none ∨ s.RunMe ≤ 0) : Sch_DispatchTasks_call i s = [] := by
  unfold Sch_DispatchTasks_call
  cases hT : s.Task with
  | none => rfl
  | some f =>
    rcases h with h | h
    · rw [hT] at h; cases h
    · simp [show ¬ s.RunMe > 0 by omega]

theorem callsFrom_zero_filter (Config : Table) (i : Nat) (s : TaskConfig_t)
    (h : Config[i]? = some s) :
    (callsFrom 0 Config).filter (fun c => decide (c.TaskId = i)) = Sch_DispatchTasks_call i s := by
  rw [callsFrom_filter i Config 0]
  simp [h]

/-- C5: one call of `Sch_DispatchTasks` calls the task of every occupied slot
with `RunMe > 0` exactly once and lowers that slot by exactly one in `RunMe`; it
calls no task of a free slot or of a slot whose `RunMe` is not positive and leaves
those slots as they were. Every call it makes is for a slot of the table. -/
theorem C5_Sch_DispatchTasks_once_per_due_slot (Config : Table)
    (hcap : SCH_MAX_TASKS Config ≤ 255) :
    ∃ calls Config', Sch_DispatchTasks Config = .ok (calls, Config') ∧
      SCH_MAX_TASKS Config' = SCH_MAX_TASKS Config ∧
      (∀ c ∈ calls, c.TaskId < SCH_MAX_TASKS Config) ∧
      ∀ (i : Nat) (s : TaskConfig_t), Config[i]? = some s →
        (∀ f, s.Task = some f → s.RunMe > 0 →
          calls.filter (fun c => decide (c.TaskId = i)) = [⟨i, f⟩] ∧
          Config'[i]? = some { s with RunMe := s.RunMe - 1 }) ∧
        (s.Task = none ∨ s.RunMe ≤ 0 →
          calls.filter (fun c => decide (c.TaskId = i)) = [] ∧
          Config'[i]? = some s) := by
  refine ⟨_, _, Sch_DispatchTasks_eq Config hcap, by simp [SCH_MAX_TASKS], ?_, ?_⟩
  · intro c hc
    by_contra hlt
    have hfil : c ∈ (callsFrom 0 Config).filter (fun x => decide (x.TaskId = c.TaskId)) :=
      List.mem_filter.mpr ⟨hc, by simp⟩
    rw [callsFrom_filter c.TaskId Config 0] at hfil
    simp only [SCH_MAX_TASKS] at hlt
    rw [if_pos (Nat.zero_le _), List.getElem?_eq_none (by omega)] at hfil
    simp at hfil
  · intro i s hs
    constructor
    · intro f hT hR
      rw [callsFrom_zero_filter Config i s hs, Sch_DispatchTasks_call_due i s f hT hR,
        List.getElem?_map, hs, Option.map_some', Sch_DispatchTasks_slot_due s f hT hR]
      exact ⟨rfl, rfl⟩
    · intro h
      rw [callsFrom_zero_filter Config i s hs, Sch_DispatchTasks_call_idle i s h,
        List.getElem?_map, hs, Option.map_some', Sch_DispatchTasks_slot_idle s h]
      exact ⟨rfl, rfl⟩

/-- C6: the calls made by one `Sch_DispatchTasks` come in strictly increasing
slot-index order: when slots `i < j` are both due, the call for slot `i` precedes
the call for slot `j`. -/
theorem C6_Sch_DispatchTasks_index_order (Config : Table)
    (hcap : SCH_MAX_TASKS Config ≤ 255) :
    ∃ calls Config', Sch_DispatchTasks Config = .ok (calls, Config') ∧
      calls.Pairwise (fun a b => a.TaskId < b.TaskId) ∧
      ∀ (i j : Nat) (si sj : TaskConfig_t) (f g : Nat), i < j → Config[i]? = some si → Config[j]? = some sj →
        si.Task = some f → si.RunMe > 0 → sj.Task = some g → sj.RunMe > 0 →
        [(⟨i, f⟩ : Call), ⟨j, g⟩].Sublist calls := by
  refine ⟨_, _, Sch_DispatchTasks_eq Config hcap, (callsFrom_pairwise Config 0).1, ?_⟩
  intro i j si sj f g hij hi hj hf hfr hg hgr
  have hmem : ∀ (k : Nat) (s : TaskConfig_t) (h : Nat), Config[k]? = some s → s.Task = some h →
      s.RunMe > 0 → (⟨k, h⟩ : Call) ∈ callsFrom 0 Config := by
    intro k s h hk hT hR
    have : (⟨k, h⟩ : Call) ∈ (callsFrom 0 Config).filter (fun c => decide (c.TaskId = k)) := by
      rw [callsFrom_zero_filter Config k s hk, Sch_DispatchTasks_call_due k s h hT hR]
      simp
    exact (List.mem_filter.mp this).1
  exact sublist_pair_of_pairwise _ _ _ (callsFrom_pairwise Config 0).1
    (hmem i si f hi hf hfr) (hmem j sj g hj hg hgr) hij


/-- C5, an instance: a due slot, an occupied idle slot and a free slot. -/
theorem C5_witness :
    ∃ calls Config',
      Sch_DispatchTasks [⟨some 7, 99, 100, 2⟩, ⟨some 8, 0, 50, 0⟩, freeSlot] = .ok (calls, Config') ∧
      SCH_MAX_TASKS Config' = SCH_MAX_TASKS [⟨some 7, 99, 100, 2⟩, ⟨some 8, 0, 50, 0⟩, freeSlot] ∧
      (∀ c ∈ calls, c.TaskId < SCH_MAX_TASKS [⟨some 7, 99, 100, 2⟩, ⟨some 8, 0, 50, 0⟩, freeSlot]) ∧
      ∀ (i : Nat) (s : TaskConfig_t), ([⟨some 7, 99, 100, 2⟩, ⟨some 8, 0, 50, 0⟩, freeSlot] : Table)[i]? = some s →
        (∀ f, s.Task = some f → s.RunMe > 0 →
          calls.filter (fun c => decide (c.TaskId = i)) = [⟨i, f⟩] ∧
          Config'[i]? = some { s with RunMe := s.RunMe - 1 }) ∧
        (s.Task = none ∨ s.RunMe ≤ 0 →
          calls.filter (fun c => decide (c.TaskId = i)) = [] ∧
          Config'[i]? = some s) :=
  C5_Sch_DispatchTasks_once_per_due_slot [⟨some 7, 99, 100, 2⟩, ⟨some 8, 0, 50, 0⟩, freeSlot]
    (by decide)

/-- C6, an instance: two due slots around a free one. -/
theorem C6_witness :
    ∃ calls Config',
      Sch_DispatchTasks [⟨some 7, 99, 100, 2⟩, freeSlot, ⟨some 8, 0, 50, 1⟩] = .ok (calls, Config') ∧
      calls.Pairwise (fun a b => a.TaskId < b.TaskId) ∧
      ∀ (i j : Nat) (si sj : TaskConfig_t) (f g : Nat), i < j →
        ([⟨some 7, 99, 100, 2⟩, freeSlot, ⟨some 8, 0, 50, 1⟩] : Table)[i]? = some si →
        ([⟨some 7, 99, 100, 2⟩, freeSlot, ⟨some 8, 0, 50, 1⟩] : Table)[j]? = some sj →
        si.Task = some f → si.RunMe > 0 → sj.Task = some g → sj.RunMe > 0 →
        [(⟨i, f⟩ : Call), ⟨j, g⟩].Sublist calls :=
  C6_Sch_DispatchTasks_index_order [⟨some 7, 99, 100, 2⟩, freeSlot, ⟨some 8, 0, 50, 1⟩] (by decide)


/-! ## The tick accounting -/

theorem Sch_Update_slot_due (v : Variant) (s : TaskConfig_t) (hT : s.Task ≠ none)
    (hD : s.Delay = 0) :
    Sch_Update_slot v s = { s with RunMe := v.wrapRunMe (s.RunMe + 1),
                                   Delay := (s.Period + 2 ^ 32 - 1) % 2 ^ 32 % 2 ^ v.delayBits } := by
  unfold Sch_Update_slot
  simp [hT, hD]

theorem Sch_Update_slot_wait (v : Variant) (s : TaskConfig_t) (hT : s.Task ≠ none)
    (hD : 0 < s.Delay) : Sch_Update_slot v s = { s with Delay := s.Delay - 1 } := by
  unfold Sch_Update_slot
  simp [hT, show ¬ s.Delay = 0 by omega]

theorem Sch_Update_slot_free (v : Variant) (s : TaskConfig_t) (hT : s.Task = none) :
    Sch_Update_slot v s = s := by
  unfold Sch_Update_slot
  simp [hT]

/-- C4 (amended): one call of `Sch_Update` in `src/sch.c` calls no task and
transforms every slot on its own. An occupied slot with `Delay == 0` gets
`RunMe + 1` reduced to `int8_t` and `Delay = Period - 1` reduced to `uint32_t`;
these are exactly `RunMe + 1` and `Period - 1` when `RunMe < 127` and `Period > 0`.
An occupied slot with `Delay > 0` gets `Delay - 1` and keeps `RunMe`; a free slot
is unchanged. -/
theorem C4_Sch_Update_per_slot (Config : Table) (hcap : SCH_MAX_TASKS Config ≤ 255) :
    ∃ Config', Sch_Update .posix Config = .ok ([], Config') ∧
      SCH_MAX_TASKS Config' = SCH_MAX_TASKS Config ∧
      ∀ (i : Nat) (s : TaskConfig_t), Config[i]? = some s →
        (s.Task ≠ none → s.Delay = 0 →
          Config'[i]? = some { s with RunMe := (s.RunMe + 1 + 128) % 256 - 128,
                                      Delay := (s.Period + 2 ^ 32 - 1) % 2 ^ 32 } ∧
          (-128 ≤ s.RunMe → s.RunMe < 127 → 0 < s.Period → s.Period < 2 ^ 32 →
            Config'[i]? = some { s with RunMe := s.RunMe + 1, Delay := s.Period - 1 })) ∧
        (s.Task ≠ none → 0 < s.Delay →
          Config'[i]? = some { s with Delay := s.Delay - 1 }) ∧
        (s.Task = none → Config'[i]? = some s) := by
  refine ⟨_, Sch_Update_posix_eq Config hcap, by simp [SCH_MAX_TASKS], ?_⟩
  intro i s hs
  rw [List.getElem?_map, hs, Option.map_some']
  refine ⟨?_, ?_, ?_⟩
  · intro hT hD
    rw [Sch_Update_slot_due .posix s hT hD]
    have h1 : (s.Period + 2 ^ 32 - 1) % 2 ^ 32 % 2 ^ Variant.delayBits .posix
        = (s.Period + 2 ^ 32 - 1) % 2 ^ 32 := by
      simp only [Variant.delayBits]; omega
    refine ⟨by simp only [Variant.wrapRunMe, h1], ?_⟩
    intro hlo hhi hp hp32
    have h2 : Variant.wrapRunMe .posix (s.RunMe + 1) = s.RunMe + 1 := by
      simp only [Variant.wrapRunMe]; omega
    have h3 : (s.Period + 2 ^ 32 - 1) % 2 ^ 32 = s.Period - 1 := by omega
    rw [h1, h2, h3]
  · intro hT hD
    rw [Sch_Update_slot_wait .posix s hT hD]
  · intro hT
    rw [Sch_Update_slot_free .posix s hT]

/-- C4, an instance: a due slot, a waiting slot and a free slot. -/
theorem C4_witness :
    ∃ Config', Sch_Update .posix [⟨some 7, 0, 100, 0⟩, ⟨some 8, 1, 50, 0⟩, freeSlot] = .ok ([], Config') ∧
      SCH_MAX_TASKS Config' = SCH_MAX_TASKS [⟨some 7, 0, 100, 0⟩, ⟨some 8, 1, 50, 0⟩, freeSlot] ∧
      ∀ (i : Nat) (s : TaskConfig_t), ([⟨some 7, 0, 100, 0⟩, ⟨some 8, 1, 50, 0⟩, freeSlot] : Table)[i]? = some s →
        (s.Task ≠ none → s.Delay = 0 →
          Config'[i]? = some { s with RunMe := (s.RunMe + 1 + 128) % 256 - 128,
                                      Delay := (s.Period + 2 ^ 32 - 1) % 2 ^ 32 } ∧
          (-128 ≤ s.RunMe → s.RunMe < 127 → 0 < s.Period → s.Period < 2 ^ 32 →
            Config'[i]? = some { s with RunMe := s.RunMe + 1, Delay := s.Period - 1 })) ∧
        (s.Task ≠ none → 0 < s.Delay →
          Config'[i]? = some { s with Delay := s.Delay - 1 }) ∧
        (s.Task = none → Config'[i]? = some s) :=
  C4_Sch_Update_per_slot [⟨some 7, 0, 100, 0⟩, ⟨some 8, 1, 50, 0⟩, freeSlot] (by decide)



theorem succ_div_mod (m p : Nat) (hp : 0 < p) :
    (m % p = p - 1 → (m + 1) % p = 0 ∧ (m + 1) / p = m / p + 1) ∧
    (m % p ≠ p - 1 → (m + 1) % p = m % p + 1 ∧ (m + 1) / p = m / p) := by
  have h1 := Nat.div_add_mod m p
  have h2 := Nat.mod_lt m hp
  constructor
  · intro h
    have := (Nat.div_mod_unique (a := m + 1) (d := m / p + 1) (c := 0) hp).mpr
      ⟨by rw [Nat.mul_add, Nat.mul_one]; omega, hp⟩
    exact ⟨this.2, this.1⟩
  · intro h
    have := (Nat.div_mod_unique (a := m + 1) (d := m / p) (c := m % p + 1) hp).mpr
      ⟨by omega, by omega⟩
    exact ⟨this.2, this.1⟩

theorem delayAfter_succ (d p n : Nat) (hp : 0 < p) :
    delayAfter d p (n + 1) = if delayAfter d p n = 0 then p - 1 else delayAfter d p n - 1 := by
  unfold delayAfter
  by_cases h1 : n + 1 ≤ d
  · rw [if_pos h1, if_pos (by omega : n ≤ d), if_neg (by omega)]
    omega
  · by_cases h2 : n ≤ d
    · have h3 : n = d := by omega
      subst h3
      simp
    · rw [if_neg h1, if_neg h2]
      have h3 : n + 1 - 1 - d = (n - 1 - d) + 1 := by omega
      rw [h3]
      have hm := Nat.mod_lt (n - 1 - d) hp
      obtain ⟨ha, hb⟩ := succ_div_mod (n - 1 - d) p hp
      by_cases h4 : (n - 1 - d) % p = p - 1
      · rw [(ha h4).1, if_pos (by omega)]; omega
      · rw [(hb h4).1, if_neg (by omega)]; omega

theorem dueCount_succ (d p n : Nat) (hp : 0 < p) :
    dueCount d p (n + 1) = dueCount d p n + (if delayAfter d p n = 0 then 1 else 0) := by
  unfold dueCount delayAfter
  by_cases h1 : n + 1 ≤ d
  · rw [if_pos h1, if_pos (by omega : n ≤ d), if_pos (by omega : n ≤ d), if_neg (by omega)]
  · by_cases h2 : n ≤ d
    · have h3 : n = d := by omega
      subst h3
      simp
    · rw [if_neg h1, if_neg h2, if_neg h2]
      have h3 : n + 1 - 1 - d = (n - 1 - d) + 1 := by omega
      rw [h3]
      have hm := Nat.mod_lt (n - 1 - d) hp
      obtain ⟨ha, hb⟩ := succ_div_mod (n - 1 - d) p hp
      by_cases h4 : (n - 1 - d) % p = p - 1
      · rw [(ha h4).2, if_pos (by omega)]
      · rw [(hb h4).2, if_neg (by omega)]

theorem delayAfter_eq_zero_iff (d p n : Nat) (hp : 0 < p) :
    delayAfter d p n = 0 ↔ ∃ k, n = d + k * p := by
  unfold delayAfter
  by_cases h2 : n ≤ d
  · rw [if_pos h2]
    constructor
    · intro h; exact ⟨0, by omega⟩
    · rintro ⟨k, hk⟩
      have : k * p ≥ 0 := Nat.zero_le _
      omega
  · rw [if_neg h2]
    have hm := Nat.mod_lt (n - 1 - d) hp
    obtain ⟨ha, hb⟩ := succ_div_mod (n - 1 - d) p hp
    have h3 : (n - 1 - d) + 1 = n - d := by omega
    rw [h3] at ha hb
    constructor
    · intro h
      have h4 : (n - 1 - d) % p = p - 1 := by omega
      have h5 := Nat.div_add_mod (n - d) p
      rw [(ha h4).1] at h5
      exact ⟨(n - d) / p, by rw [Nat.mul_comm]; omega⟩
    · rintro ⟨k, hk⟩
      by_contra hne
      have h4 : (n - 1 - d) % p ≠ p - 1 := by omega
      have h5 : (n - d) % p = 0 := by
        rw [show n - d = k * p by omega]
        exact Nat.mul_mod_left k p
      have := (hb h4).1
      omega

theorem dueCount_lt_iff (d p n k : Nat) (hp : 0 < p) :
    d + k * p < n ↔ k < dueCount d p n := by
  unfold dueCount
  by_cases h : n ≤ d
  · rw [if_pos h]
    have : k * p ≥ 0 := Nat.zero_le _
    omega
  · rw [if_neg h, Nat.lt_succ_iff, Nat.le_div_iff_mul_le hp]
    omega

theorem dueCount_le (d p n : Nat) : dueCount d p n ≤ n := by
  unfold dueCount
  split
  · omega
  · have : (n - 1 - d) / p ≤ n - 1 - d := Nat.div_le_self _ _
    omega

theorem count_lt (c : Nat) : ∀ n, Nat.count (fun k => k < c) n = min c n := by
  intro n
  induction n with
  | zero => simp
  | succ n ih =>
    rw [Nat.count_succ, ih]
    by_cases h : n < c
    · simp [h]; omega
    · simp [h]; omega

theorem dueCount_eq_count (d p n : Nat) (hp : 0 < p) :
    dueCount d p n = Nat.count (fun k => d + k * p < n) n := by
  have hle := dueCount_le d p n
  have hfil : Finset.filter (fun k => d + k * p < n) (Finset.range n)
      = Finset.filter (fun k => k < dueCount d p n) (Finset.range n) := by
    apply Finset.filter_congr
    intro x _
    exact dueCount_lt_iff d p n x hp
  rw [Nat.count_eq_card_filter_range, hfil, ← Nat.count_eq_card_filter_range, count_lt]
  omega


theorem wrapRunMe_posix_succ (x : Int) :
    Variant.wrapRunMe .posix (Variant.wrapRunMe .posix x + 1) = Variant.wrapRunMe .posix (x + 1) := by
  simp only [Variant.wrapRunMe]
  omega

theorem wrapRunMe_posix_of_le (k : Nat) (h : k ≤ 127) :
    Variant.wrapRunMe .posix (k : Int) = k := by
  simp only [Variant.wrapRunMe]
  omega

theorem Sch_Update_slot_slotAfterTicks (f d p n : Nat) (hp : 0 < p) (hp32 : p < 2 ^ 32) :
    Sch_Update_slot .posix (slotAfterTicks f d p n) = slotAfterTicks f d p (n + 1) := by
  have hT : (slotAfterTicks f d p n).Task ≠ none := by simp [slotAfterTicks]
  by_cases hD : delayAfter d p n = 0
  · have e1 : delayAfter d p (n + 1) = p - 1 := by rw [delayAfter_succ d p n hp, if_pos hD]
    have e2 : dueCount d p (n + 1) = dueCount d p n + 1 := by
      rw [dueCount_succ d p n hp, if_pos hD]
    have e3 : (p + 2 ^ 32 - 1) % 2 ^ 32 % 2 ^ Variant.delayBits .posix = p - 1 := by
      simp only [Variant.delayBits]; omega
    rw [Sch_Update_slot_due .posix _ hT hD]
    unfold slotAfterTicks
    rw [e1, e2]
    show ({ Task := some f, Delay := (p + 2 ^ 32 - 1) % 2 ^ 32 % 2 ^ Variant.delayBits .posix,
            Period := p,
            RunMe := Variant.wrapRunMe .posix (Variant.wrapRunMe .posix (dueCount d p n) + 1) }
          : TaskConfig_t) = _
    rw [e3, wrapRunMe_posix_succ, Nat.cast_add, Nat.cast_one]
  · have e1 : delayAfter d p (n + 1) = delayAfter d p n - 1 := by
      rw [delayAfter_succ d p n hp, if_neg hD]
    have e2 : dueCount d p (n + 1) = dueCount d p n := by
      rw [dueCount_succ d p n hp, if_neg hD, Nat.add_zero]
    rw [Sch_Update_slot_wait .posix _ hT (Nat.pos_of_ne_zero hD)]
    unfold slotAfterTicks
    rw [e1, e2]

theorem Sch_Update_slot_iterate (f d p : Nat) (hp : 0 < p) (hp32 : p < 2 ^ 32) :
    ∀ n, (Sch_Update_slot .posix)^[n] { Task := some f, Delay := d, Period := p, RunMe := 0 }
      = slotAfterTicks f d p n := by
  intro n
  induction n with
  | zero => simp [slotAfterTicks, delayAfter, dueCount, Variant.wrapRunMe]
  | succ n ih =>
    rw [Function.iterate_succ_apply', ih, Sch_Update_slot_slotAfterTicks f d p n hp hp32]

theorem Sch_Update_times_posix_eq :
    ∀ (n : Nat) (Config : Table), Config.length ≤ 255 →
      Sch_Update_times .posix n Config = .ok ([], Config.map (Sch_Update_slot .posix)^[n]) := by
  intro n
  induction n with
  | zero => intro Config _; simp [Sch_Update_times]
  | succ n ih =>
    intro Config hN
    rw [Sch_Update_times, Sch_Update_posix_eq Config hN]
    simp only
    rw [ih _ (by simpa using hN)]
    simp only [List.nil_append, List.map_map, Function.iterate_succ]

theorem Sch_AddTask_ok_inv (v : Variant) (Config Config' : Table) (Function : Option Nat)
    (d p i : Nat) (h : Sch_AddTask v Config Function d p = .ok (i, Config')) :
    i < Config.length ∧ Config' = Config.set i
      { Task := Function, Delay := d % 2 ^ v.delayBits, Period := p, RunMe := 0 } := by
  unfold Sch_AddTask at h
  cases hscan : Sch_AddTask_scan 256 0 Config with
  | error e => rw [hscan] at h; cases h
  | ok TaskId =>
    rw [hscan] at h
    simp only [SCH_MAX_TASKS] at h
    by_cases hlt : TaskId < Config.length
    · rw [if_pos hlt] at h
      injection h with h
      injection h with h1 h2
      subst h1
      exact ⟨hlt, h2.symm⟩
    · rw [if_neg hlt] at h; cases h

/-- The slot of a task added with `(f, d, p)` after `n` ticks. -/
theorem added_slot_after_ticks (Config0 Config : Table) (f d p i n : Nat)
    (hcap : SCH_MAX_TASKS Config0 ≤ 255) (hp : 0 < p) (hp32 : p < 2 ^ 32) (hd32 : d < 2 ^ 32)
    (hadd : Sch_AddTask .posix Config0 (some f) d p = .ok (i, Config)) :
    ∃ Config_n, Sch_Update_times .posix n Config = .ok ([], Config_n) ∧
      Config_n.length = Config0.length ∧
      Config_n[i]? = some (slotAfterTicks f d p n) := by
  obtain ⟨hi, hC⟩ := Sch_AddTask_ok_inv .posix Config0 Config (some f) d p i hadd
  have hlen : Config.length = Config0.length := by rw [hC]; simp
  have hd' : d % 2 ^ Variant.delayBits .posix = d := by
    simp only [Variant.delayBits]; omega
  have hslot : Config[i]? = some { Task := some f, Delay := d, Period := p, RunMe := 0 } := by
    rw [hC, List.getElem?_set_self hi, hd']
  refine ⟨_, Sch_Update_times_posix_eq n Config (by rw [hlen]; exact hcap), by simp [hlen], ?_⟩
  rw [List.getElem?_map, hslot, Option.map_some', Sch_Update_slot_iterate f d p hp hp32 n]

/-- C3 (amended): a task added in `src/sch.c` with initial delay `d` and period
`p > 0` has, after `n` calls of `Sch_Update` and no dispatch, a `RunMe` equal to
the number of `k` with `d + k * p < n` (which is `0` if `n ≤ d` and
`(n - 1 - d) / p + 1` otherwise) converted to `int8_t`, hence equal to that number
whenever it is at most `127`. For every `n` the task is due at tick `n` (its
`Delay` is `0` when tick `n` starts) exactly when `n = d + k * p` for some `k`, and
the number of due ticks goes up by one exactly at those ticks. -/
theorem C3_Sch_Update_due_ticks (Config0 Config : Table) (f d p i n : Nat)
    (hcap : SCH_MAX_TASKS Config0 ≤ 255) (hp : 0 < p) (hp32 : p < 2 ^ 32) (hd32 : d < 2 ^ 32)
    (hadd : Sch_AddTask .posix Config0 (some f) d p = .ok (i, Config)) :
    ∃ Config_n s, Sch_Update_times .posix n Config = .ok ([], Config_n) ∧
      Config_n[i]? = some s ∧
      s.RunMe = ((dueCount d p n : Int) + 128) % 256 - 128 ∧
      (dueCount d p n ≤ 127 → s.RunMe = (dueCount d p n : Int)) ∧
      dueCount d p n = Nat.count (fun k => d + k * p < n) n ∧
      (s.Delay = 0 ↔ ∃ k, n = d + k * p) ∧
      ((∃ k, n = d + k * p) → dueCount d p (n + 1) = dueCount d p n + 1) ∧
      ((¬ ∃ k, n = d + k * p) → dueCount d p (n + 1) = dueCount d p n) := by
  obtain ⟨Config_n, hupd, _, hslot⟩ :=
    added_slot_after_ticks Config0 Config f d p i n hcap hp hp32 hd32 hadd
  refine ⟨Config_n, _, hupd, hslot, rfl, ?_, dueCount_eq_count d p n hp,
    delayAfter_eq_zero_iff d p n hp, ?_, ?_⟩
  · intro h
    exact wrapRunMe_posix_of_le _ h
  · intro h
    rw [dueCount_succ d p n hp, if_pos ((delayAfter_eq_zero_iff d p n hp).mpr h)]
  · intro h
    rw [dueCount_succ d p n hp, if_neg (fun h0 => h ((delayAfter_eq_zero_iff d p n hp).mp h0)),
      Nat.add_zero]

/-- C3, an instance: the second task of a two-slot table, `d = 1`, `p = 3`,
seven ticks. -/
theorem C3_witness :
    ∃ Config_n s,
      Sch_Update_times .posix 7 [⟨some 7, 0, 100, 0⟩, ⟨some 8, 1, 3, 0⟩] = .ok ([], Config_n) ∧
      Config_n[1]? = some s ∧
      s.RunMe = ((dueCount 1 3 7 : Int) + 128) % 256 - 128 ∧
      (dueCount 1 3 7 ≤ 127 → s.RunMe = (dueCount 1 3 7 : Int)) ∧
      dueCount 1 3 7 = Nat.count (fun k => 1 + k * 3 < 7) 7 ∧
      (s.Delay = 0 ↔ ∃ k, 7 = 1 + k * 3) ∧
      ((∃ k, 7 = 1 + k * 3) → dueCount 1 3 (7 + 1) = dueCount 1 3 7 + 1) ∧
      ((¬ ∃ k, 7 = 1 + k * 3) → dueCount 1 3 (7 + 1) = dueCount 1 3 7) :=
  C3_Sch_Update_due_ticks [⟨some 7, 0, 100, 0⟩, freeSlot] [⟨some 7, 0, 100, 0⟩, ⟨some 8, 1, 3, 0⟩]
    8 1 3 1 7 (by decide) (by decide) (by decide) (by decide) (by decide)


/-- C3 (counterexample): a task with `d = 0`, `p = 1` is due at each of the ticks
`0, ..., 127`; after these `128` calls of `Sch_Update` its `RunMe` is `-128`, not
`128`. -/
theorem C3_RunMe_wraps_after_128_due_ticks :
    Sch_AddTask .posix [freeSlot] (some 1) 0 1 = .ok (0, [⟨some 1, 0, 1, 0⟩]) ∧
    Sch_Update_times .posix 128 [⟨some 1, 0, 1, 0⟩] = .ok ([], [⟨some 1, 0, 1, -128⟩]) ∧
    dueCount 0 1 128 = 128 := by
  refine ⟨by decide, ?_, by decide⟩
  rw [Sch_Update_times_posix_eq 128 _ (by decide)]
  simp only [List.map_cons, List.map_nil]
  rw [Sch_Update_slot_iterate 1 0 1 (by decide) (by decide) 128]
  decide


theorem Sch_DispatchTasks_slot_iterate (s : TaskConfig_t) (f k : Nat) (hT : s.Task = some f)
    (hR : s.RunMe = (k : Int)) :
    ∀ r, Sch_DispatchTasks_slot^[r] s = { s with RunMe := ((k - r : Nat) : Int) } := by
  intro r
  induction r with
  | zero =>
    simp only [Function.iterate_zero, id_eq, Nat.sub_zero]
    rw [← hR]
  | succ r ih =>
    rw [Function.iterate_succ_apply', ih]
    by_cases h : r < k
    · rw [Sch_DispatchTasks_slot_due { s with RunMe := ((k - r : Nat) : Int) } f hT
        (by simp only; omega)]
      simp only [TaskConfig_t.mk.injEq, true_and]
      omega
    · rw [Sch_DispatchTasks_slot_idle { s with RunMe := ((k - r : Nat) : Int) }
        (Or.inr (by simp only; omega))]
      simp only [TaskConfig_t.mk.injEq, true_and]
      omega

theorem Sch_DispatchTasks_times_eq :
    ∀ (j : Nat) (Config : Table), Config.length ≤ 255 →
      Sch_DispatchTasks_times j Config
        = .ok ((List.range j).map (fun r => callsFrom 0 (Config.map Sch_DispatchTasks_slot^[r])),
               Config.map Sch_DispatchTasks_slot^[j]) := by
  intro j
  induction j with
  | zero => intro Config _; simp [Sch_DispatchTasks_times]
  | succ j ih =>
    intro Config hN
    rw [Sch_DispatchTasks_times, Sch_DispatchTasks_eq Config hN]
    simp only
    rw [ih _ (by simpa using hN)]
    simp only [List.range_succ_eq_map, List.map_cons, List.map_map, Function.iterate_zero,
      List.map_id, Function.iterate_succ]
    rfl

/-- C7 (amended): if a task of `src/sch.c` became due `k ≤ 127` times in `n`
consecutive calls of `Sch_Update`, its `RunMe` is `k`. With no further tick, after
`j ≤ k` calls of `Sch_DispatchTasks` its `RunMe` is `k - j`; `RunMe` is `0` exactly
from the `k`-th call on; each of the first `k` calls runs the task once and no
later call runs it. -/
theorem C7_overrun_accumulates_and_drains (Config0 Config : Table) (f d p i n k : Nat)
    (hcap : SCH_MAX_TASKS Config0 ≤ 255) (hp : 0 < p) (hp32 : p < 2 ^ 32) (hd32 : d < 2 ^ 32)
    (hadd : Sch_AddTask .posix Config0 (some f) d p = .ok (i, Config))
    (hk : Nat.count (fun m => d + m * p < n) n = k) (hk127 : k ≤ 127) :
    ∃ Config_n s, Sch_Update_times .posix n Config = .ok ([], Config_n) ∧
      Config_n[i]? = some s ∧ s.RunMe = (k : Int) ∧
      ∀ j, ∃ rounds Config_j t,
        Sch_DispatchTasks_times j Config_n = .ok (rounds, Config_j) ∧
        rounds.length = j ∧
        Config_j[i]? = some t ∧
        (j ≤ k → t.RunMe = (k : Int) - (j : Int)) ∧
        (t.RunMe = 0 ↔ k ≤ j) ∧
        ∀ (r : Nat) (calls : List Call), rounds[r]? = some calls →
          calls.filter (fun c => decide (c.TaskId = i)) = if r < k then [⟨i, f⟩] else [] := by
  obtain ⟨Config_n, hupd, hlen, hslot⟩ :=
    added_slot_after_ticks Config0 Config f d p i n hcap hp hp32 hd32 hadd
  have hk' : dueCount d p n = k := by rw [dueCount_eq_count d p n hp, hk]
  have hT : (slotAfterTicks f d p n).Task = some f := rfl
  have hR : (slotAfterTicks f d p n).RunMe = (k : Int) := by
    show Variant.wrapRunMe .posix (dueCount d p n) = _
    rw [hk', wrapRunMe_posix_of_le k hk127]
  have hN : Config_n.length ≤ 255 := by rw [hlen]; exact hcap
  refine ⟨Config_n, _, hupd, hslot, hR, ?_⟩
  intro j
  have hiter := Sch_DispatchTasks_slot_iterate _ f k hT hR
  refine ⟨_, _, { slotAfterTicks f d p n with RunMe := ((k - j : Nat) : Int) },
    Sch_DispatchTasks_times_eq j Config_n hN, by simp, ?_, ?_, ?_, ?_⟩
  · rw [List.getElem?_map, hslot, Option.map_some', hiter j]
  · intro hjk
    simp only
    omega
  · simp only
    omega
  · intro r calls hr
    rw [List.getElem?_map] at hr
    have hrj : r < j := by
      by_contra hc
      rw [List.getElem?_eq_none (by simp; omega)] at hr
      simp at hr
    rw [List.getElem?_range hrj, Option.map_some'] at hr
    injection hr with hr
    subst hr
    have hs : (Config_n.map Sch_DispatchTasks_slot^[r])[i]?
        = some { slotAfterTicks f d p n with RunMe := ((k - r : Nat) : Int) } := by
      rw [List.getElem?_map, hslot, Option.map_some', hiter r]
    rw [callsFrom_zero_filter _ i _ hs]
    by_cases h : r < k
    · rw [if_pos h, Sch_DispatchTasks_call_due i _ f rfl (by simp only; omega)]
    · rw [if_neg h, Sch_DispatchTasks_call_idle i _ (Or.inr (by simp only; omega))]

/-- C7, an instance: `d = 1`, `p = 3`, seven ticks, so the task became due
twice. -/
theorem C7_witness :
    ∃ Config_n s,
      Sch_Update_times .posix 7 [⟨some 7, 0, 100, 0⟩, ⟨some 8, 1, 3, 0⟩] = .ok ([], Config_n) ∧
      Config_n[1]? = some s ∧ s.RunMe = ((2 : Nat) : Int) ∧
      ∀ j, ∃ rounds Config_j t,
        Sch_DispatchTasks_times j Config_n = .ok (rounds, Config_j) ∧
        rounds.length = j ∧
        Config_j[1]? = some t ∧
        (j ≤ 2 → t.RunMe = ((2 : Nat) : Int) - (j : Int)) ∧
        (t.RunMe = 0 ↔ 2 ≤ j) ∧
        ∀ (r : Nat) (calls : List Call), rounds[r]? = some calls →
          calls.filter (fun c => decide (c.TaskId = 1)) = if r < 2 then [⟨1, 8⟩] else [] :=
  C7_overrun_accumulates_and_drains [⟨some 7, 0, 100, 0⟩, freeSlot]
    [⟨some 7, 0, 100, 0⟩, ⟨some 8, 1, 3, 0⟩] 8 1 3 1 7 2
    (by decide) (by decide) (by decide) (by decide) (by decide) (by decide) (by decide)


/-- C7 (counterexample): a task with `d = 0`, `p = 2` became due `128` times
after `255` ticks; its `RunMe` is then `-128`, and `Sch_DispatchTasks` does not run
it at all. -/
theorem C7_128_due_ticks_never_dispatched :
    Sch_AddTask .posix [freeSlot] (some 1) 0 2 = .ok (0, [⟨some 1, 0, 2, 0⟩]) ∧
    Nat.count (fun m => 0 + m * 2 < 255) 255 = 128 ∧
    Sch_Update_times .posix 255 [⟨some 1, 0, 2, 0⟩] = .ok ([], [⟨some 1, 1, 2, -128⟩]) ∧
    Sch_DispatchTasks [⟨some 1, 1, 2, -128⟩] = .ok ([], [⟨some 1, 1, 2, -128⟩]) := by
  refine ⟨by decide, ?_, ?_, by decide⟩
  · rw [← dueCount_eq_count 0 2 255 (by decide)]
    decide
  · rw [Sch_Update_times_posix_eq 255 _ (by decide)]
    simp only [List.map_cons, List.map_nil]
    rw [Sch_Update_slot_iterate 1 0 2 (by decide) (by decide) 255]
    decide

/-! ## Error cases, frame of the tick, the two-task scenario -/

/-- C11 (amended): `Sch_DeleteTask` makes no bounds check and has no error
result. For every task id `≥ SCH_MAX_TASKS` its stores go to `Config[TaskId]`,
outside the array, so the call has no defined result; it yields a table exactly
for the ids below `SCH_MAX_TASKS`. -/
theorem C11_Sch_DeleteTask_out_of_range (Config : Table) (TaskId : Nat)
    (h : SCH_MAX_TASKS Config ≤ TaskId) :
    Sch_DeleteTask Config TaskId = .error (.OutOfBounds TaskId) ∧
    ∀ (id : Nat), (∃ Config', Sch_DeleteTask Config id = .ok Config') ↔ id < SCH_MAX_TASKS Config := by
  constructor
  · simp [Sch_DeleteTask, Nat.not_lt.mpr h]
  · intro id
    by_cases hid : id < SCH_MAX_TASKS Config
    · simp [Sch_DeleteTask, hid]
    · simp [Sch_DeleteTask, hid]

/-- C11, an instance: id `2` on a table of two slots. -/
theorem C11_witness :
    Sch_DeleteTask [⟨some 1, 3, 4, 2⟩, freeSlot] 2 = .error (.OutOfBounds 2) ∧
    ∀ (id : Nat), (∃ Config', Sch_DeleteTask [⟨some 1, 3, 4, 2⟩, freeSlot] id = .ok Config') ↔
      id < SCH_MAX_TASKS [⟨some 1, 3, 4, 2⟩, freeSlot] :=
  C11_Sch_DeleteTask_out_of_range [⟨some 1, 3, 4, 2⟩, freeSlot] 2 (by decide)

/-- C11 (counterexample): with one slot, `Sch_DeleteTask(1)` is a write past
the end of the array; it is not a call that reports an error and hands back the
table as it was. -/
theorem C11_no_InvalidTaskId :
    SCH_MAX_TASKS [⟨some 1, 3, 4, 2⟩] ≤ 1 ∧
    Sch_DeleteTask [⟨some 1, 3, 4, 2⟩] 1 = .error (.OutOfBounds 1) ∧
    Sch_DeleteTask [⟨some 1, 3, 4, 2⟩] 1 ≠ .ok [⟨some 1, 3, 4, 2⟩] := by
  decide

theorem Sch_Update_slot_frame (v : Variant) (s : TaskConfig_t) :
    (Sch_Update_slot v s).Task = s.Task ∧ (Sch_Update_slot v s).Period = s.Period ∧
    (s.Task = none → Sch_Update_slot v s = s) := by
  unfold Sch_Update_slot
  by_cases hT : s.Task = none
  · simp [hT]
  · by_cases hD : s.Delay = 0 <;> simp [hT, hD]

theorem Sch_DispatchTasks_slot_frame (s : TaskConfig_t) :
    (Sch_DispatchTasks_slot s).Task = s.Task ∧ (Sch_DispatchTasks_slot s).Period = s.Period ∧
    (Sch_DispatchTasks_slot s).Delay = s.Delay ∧
    (s.Task = none → Sch_DispatchTasks_slot s = s) := by
  unfold Sch_DispatchTasks_slot
  cases hT : s.Task with
  | none => simp [hT]
  | some f => by_cases hR : s.RunMe > 0 <;> simp [hR, hT]

theorem Sch_Update_template_eq (Config : Table) (hN : Config.length ≤ 255) :
    Sch_Update .template Config
      = .ok (callsFrom 0 (Config.map (Sch_Update_slot .template)),
             (Config.map (Sch_Update_slot .template)).map Sch_DispatchTasks_slot) := by
  unfold Sch_Update
  rw [Sch_Update_loop_eq_map .template Config hN]
  simp only
  rw [Sch_DispatchTasks_eq _ (by simpa using hN)]

/-- C12 (amended): in `src/sch.c` `Sch_Update` calls no task, for any table. In
`src/template/sch.c` the accounting loop of `Sch_Update` calls no task either, but
`Sch_Update` then calls `Sch_DispatchTasks`, and the calls of `Sch_Update` are
exactly the calls of that dispatcher on the table the loop produced. In both
sources `Sch_Update` leaves `Task` and `Period` of every slot unchanged. -/
theorem C12_Sch_Update_calls (Config : Table) (hcap : SCH_MAX_TASKS Config ≤ 255) :
    (∃ Config', Sch_Update .posix Config = .ok ([], Config') ∧
      ∀ (i : Nat) (s : TaskConfig_t), Config[i]? = some s →
        ∃ s', Config'[i]? = some s' ∧ s'.Task = s.Task ∧ s'.Period = s.Period) ∧
    (∃ Config1 calls Config', Sch_Update_loop .template 256 0 Config = .ok Config1 ∧
      Sch_DispatchTasks Config1 = .ok (calls, Config') ∧
      Sch_Update .template Config = .ok (calls, Config') ∧
      ∀ (i : Nat) (s : TaskConfig_t), Config[i]? = some s →
        ∃ s', Config'[i]? = some s' ∧ s'.Task = s.Task ∧ s'.Period = s.Period) := by
  constructor
  · refine ⟨_, Sch_Update_posix_eq Config hcap, ?_⟩
    intro i s hs
    refine ⟨Sch_Update_slot .posix s, by rw [List.getElem?_map, hs, Option.map_some'], ?_, ?_⟩
    · exact (Sch_Update_slot_frame .posix s).1
    · exact (Sch_Update_slot_frame .posix s).2.1
  · refine ⟨_, _, _, Sch_Update_loop_eq_map .template Config hcap,
      Sch_DispatchTasks_eq _ (by simpa using hcap), Sch_Update_template_eq Config hcap, ?_⟩
    intro i s hs
    refine ⟨Sch_DispatchTasks_slot (Sch_Update_slot .template s),
      by rw [List.getElem?_map, List.getElem?_map, hs, Option.map_some', Option.map_some'], ?_, ?_⟩
    · rw [(Sch_DispatchTasks_slot_frame _).1, (Sch_Update_slot_frame .template s).1]
    · rw [(Sch_DispatchTasks_slot_frame _).2.1, (Sch_Update_slot_frame .template s).2.1]

/-- C12 (counterexample): in `src/template/sch.c` one `Sch_Update` on a table
whose slot 0 is due calls the task of slot 0. -/
theorem C12_template_Sch_Update_runs_task :
    Sch_Update .template [⟨some 1, 0, 100, 0⟩] = .ok ([⟨0, 1⟩], [⟨some 1, 99, 100, 0⟩]) := by
  decide

theorem Sch_Update_slot_due_posix (f p : Nat) (r : Int) (hp : 0 < p) (hp32 : p < 2 ^ 32)
    (hr1 : -128 ≤ r) (hr2 : r < 127) :
    Sch_Update_slot .posix ⟨some f, 0, p, r⟩ = ⟨some f, p - 1, p, r + 1⟩ := by
  rw [Sch_Update_slot_due .posix _ (by simp) rfl]
  simp only [Variant.wrapRunMe, Variant.delayBits, TaskConfig_t.mk.injEq, true_and]
  constructor <;> omega

theorem Sch_Update_slot_wait_posix (f d p : Nat) (r : Int) (hd : 0 < d) :
    Sch_Update_slot .posix ⟨some f, d, p, r⟩ = ⟨some f, d - 1, p, r⟩ := by
  rw [Sch_Update_slot_wait .posix _ (by simp) hd]

/-- C13: the two-task scenario of `src/main.c` with `SCH_MAX_TASKS = 2`. After
`Sch_Init`, `Sch_AddTask(A, 0, 100)` returns `0` and `Sch_AddTask(B, 1, 50)` returns
`1`; the first `Sch_Update` leaves slot 0 with `RunMe = 1`, `Delay = 99` and slot 1
with `Delay = 0`, `RunMe = 0`; `Sch_DispatchTasks` then calls `A` only; the second
`Sch_Update` leaves slot 1 with `RunMe = 1`, `Delay = 49`; `Sch_DispatchTasks` then
calls `B` only. -/
theorem C13_scenario_two_tasks (s0 s1 : TaskConfig_t) (A B : Nat) :
    Sch_Init [s0, s1] = .ok [freeSlot, freeSlot] ∧
    Sch_AddTask .posix [freeSlot, freeSlot] (some A) 0 100
      = .ok (0, [⟨some A, 0, 100, 0⟩, freeSlot]) ∧
    Sch_AddTask .posix [⟨some A, 0, 100, 0⟩, freeSlot] (some B) 1 50
      = .ok (1, [⟨some A, 0, 100, 0⟩, ⟨some B, 1, 50, 0⟩]) ∧
    Sch_Update .posix [⟨some A, 0, 100, 0⟩, ⟨some B, 1, 50, 0⟩]
      = .ok ([], [⟨some A, 99, 100, 1⟩, ⟨some B, 0, 50, 0⟩]) ∧
    Sch_DispatchTasks [⟨some A, 99, 100, 1⟩, ⟨some B, 0, 50, 0⟩]
      = .ok ([⟨0, A⟩], [⟨some A, 99, 100, 0⟩, ⟨some B, 0, 50, 0⟩]) ∧
    Sch_Update .posix [⟨some A, 99, 100, 0⟩, ⟨some B, 0, 50, 0⟩]
      = .ok ([], [⟨some A, 98, 100, 0⟩, ⟨some B, 49, 50, 1⟩]) ∧
    Sch_DispatchTasks [⟨some A, 98, 100, 0⟩, ⟨some B, 49, 50, 1⟩]
      = .ok ([⟨1, B⟩], [⟨some A, 98, 100, 0⟩, ⟨some B, 49, 50, 0⟩]) := by
  refine ⟨rfl, rfl, rfl, ?_, rfl, ?_, rfl⟩
  · rw [Sch_Update_posix_eq _ (by simp)]
    simp only [List.map_cons, List.map_nil]
    rw [Sch_Update_slot_due_posix A 100 0 (by decide) (by decide) (by decide) (by decide),
      Sch_Update_slot_wait_posix B 1 50 0 (by decide)]
    rfl
  · rw [Sch_Update_posix_eq _ (by simp)]
    simp only [List.map_cons, List.map_nil]
    rw [Sch_Update_slot_wait_posix A 99 100 0 (by decide),
      Sch_Update_slot_due_posix B 50 0 (by decide) (by decide) (by decide) (by decide)]
    rfl

/-- C12, an instance: a due task and a free slot. -/
theorem C12_witness :
    (∃ Config', Sch_Update .posix [⟨some 1, 0, 100, 0⟩, freeSlot] = .ok ([], Config') ∧
      ∀ (i : Nat) (s : TaskConfig_t), ([⟨some 1, 0, 100, 0⟩, freeSlot] : Table)[i]? = some s →
        ∃ s', Config'[i]? = some s' ∧ s'.Task = s.Task ∧ s'.Period = s.Period) ∧
    (∃ Config1 calls Config',
      Sch_Update_loop .template 256 0 [⟨some 1, 0, 100, 0⟩, freeSlot] = .ok Config1 ∧
      Sch_DispatchTasks Config1 = .ok (calls, Config') ∧
      Sch_Update .template [⟨some 1, 0, 100, 0⟩, freeSlot] = .ok (calls, Config') ∧
      ∀ (i : Nat) (s : TaskConfig_t), ([⟨some 1, 0, 100, 0⟩, freeSlot] : Table)[i]? = some s →
        ∃ s', Config'[i]? = some s' ∧ s'.Task = s.Task ∧ s'.Period = s.Period) :=
  C12_Sch_Update_calls [⟨some 1, 0, 100, 0⟩, freeSlot] (by decide)

/-! ## Wraparound of `Delay` and `RunMe` -/

theorem Sch_Update_slot_countdown (v : Variant) (s : TaskConfig_t) (hT : s.Task ≠ none) :
    ∀ m, m ≤ s.Delay → (Sch_Update_slot v)^[m] s = { s with Delay := s.Delay - m } := by
  intro m
  induction m with
  | zero => intro _; rfl
  | succ m ih =>
    intro hm
    rw [Function.iterate_succ_apply', ih (by omega),
      Sch_Update_slot_wait v { s with Delay := s.Delay - m } hT (by simp only; omega)]
    simp only [TaskConfig_t.mk.injEq, true_and, and_true]
    omega

/-- C14: for an occupied slot of `src/sch.c` with `Period == 0` and `Delay == 0`,
one `Sch_Update` increments `RunMe` (in `int8_t`) and sets `Delay` to
`2 ^ 32 - 1`, the `uint32_t` value of `0 - 1`. After `n` ticks in all,
`1 ≤ n ≤ 2 ^ 32`, `Delay` is `2 ^ 32 - n` and `RunMe` has not moved again: the
task is next due at tick `2 ^ 32`, not at every tick. -/
theorem C14_period_zero_wraps (Config : Table) (i : Nat) (s : TaskConfig_t)
    (hcap : SCH_MAX_TASKS Config ≤ 255) (hs : Config[i]? = some s)
    (hT : s.Task ≠ none) (hP : s.Period = 0) (hD : s.Delay = 0) :
    (∃ Config', Sch_Update .posix Config = .ok ([], Config') ∧
      Config'[i]? = some { s with RunMe := (s.RunMe + 1 + 128) % 256 - 128,
                                  Delay := 2 ^ 32 - 1 }) ∧
    (-128 ≤ s.RunMe → s.RunMe < 127 → (s.RunMe + 1 + 128) % 256 - 128 = s.RunMe + 1) ∧
    ∀ n, 1 ≤ n → n ≤ 2 ^ 32 →
      ∃ Config_n, Sch_Update_times .posix n Config = .ok ([], Config_n) ∧
        Config_n[i]? = some { s with RunMe := (s.RunMe + 1 + 128) % 256 - 128,
                                     Delay := 2 ^ 32 - n } := by
  have hupd : Sch_Update_slot .posix s
      = { s with RunMe := (s.RunMe + 1 + 128) % 256 - 128, Delay := 2 ^ 32 - 1 } := by
    rw [Sch_Update_slot_due .posix s hT hD, hP]
    simp only [Variant.wrapRunMe, Variant.delayBits, TaskConfig_t.mk.injEq, true_and, and_true]
    omega
  refine ⟨⟨_, Sch_Update_posix_eq Config hcap, ?_⟩, ?_, ?_⟩
  · rw [List.getElem?_map, hs, Option.map_some', hupd]
  · intro h1 h2
    omega
  · intro n h1 h2
    refine ⟨_, Sch_Update_times_posix_eq n Config hcap, ?_⟩
    obtain ⟨m, rfl⟩ : ∃ m, n = m + 1 := ⟨n - 1, by omega⟩
    rw [List.getElem?_map, hs, Option.map_some', Function.iterate_succ_apply, hupd,
      Sch_Update_slot_countdown .posix
        { s with RunMe := (s.RunMe + 1 + 128) % 256 - 128, Delay := 2 ^ 32 - 1 } hT m
        (by simp only; omega)]
    simp only [Option.some.injEq, TaskConfig_t.mk.injEq, true_and, and_true]
    omega

/-- C14, an instance: slot 1 holds a task with `Period = 0`, `Delay = 0`,
`RunMe = 3`. -/
theorem C14_witness :
    (∃ Config', Sch_Update .posix [freeSlot, ⟨some 1, 0, 0, 3⟩] = .ok ([], Config') ∧
      Config'[1]? = some { (⟨some 1, 0, 0, 3⟩ : TaskConfig_t) with
        RunMe := ((⟨some 1, 0, 0, 3⟩ : TaskConfig_t).RunMe + 1 + 128) % 256 - 128,
        Delay := 2 ^ 32 - 1 }) ∧
    (-128 ≤ (⟨some 1, 0, 0, 3⟩ : TaskConfig_t).RunMe → (⟨some 1, 0, 0, 3⟩ : TaskConfig_t).RunMe < 127 →
      ((⟨some 1, 0, 0, 3⟩ : TaskConfig_t).RunMe + 1 + 128) % 256 - 128
        = (⟨some 1, 0, 0, 3⟩ : TaskConfig_t).RunMe + 1) ∧
    ∀ n, 1 ≤ n → n ≤ 2 ^ 32 →
      ∃ Config_n, Sch_Update_times .posix n [freeSlot, ⟨some 1, 0, 0, 3⟩] = .ok ([], Config_n) ∧
        Config_n[1]? = some { (⟨some 1, 0, 0, 3⟩ : TaskConfig_t) with
          RunMe := ((⟨some 1, 0, 0, 3⟩ : TaskConfig_t).RunMe + 1 + 128) % 256 - 128,
          Delay := 2 ^ 32 - n } :=
  C14_period_zero_wraps [freeSlot, ⟨some 1, 0, 0, 3⟩] 1 ⟨some 1, 0, 0, 3⟩
    (by decide) (by decide) (by decide) (by decide) (by decide)


/-- C18: in `src/sch.c` `RunMe` is an `int8_t`. For a task that became due `m`
times in `n` ticks with no dispatch, `RunMe` is `m` reduced modulo `2 ^ 8` into
`-128 .. 127`; it equals `m` if and only if `m ≤ 127`; at `m = 128` it is `-128`,
and `Sch_DispatchTasks`, which tests `RunMe > 0`, does not call the task and
leaves the slot as it is. -/
theorem C18_RunMe_signed_8_bit (Config0 Config : Table) (f d p i n : Nat)
    (hcap : SCH_MAX_TASKS Config0 ≤ 255) (hp : 0 < p) (hp32 : p < 2 ^ 32) (hd32 : d < 2 ^ 32)
    (hadd : Sch_AddTask .posix Config0 (some f) d p = .ok (i, Config)) :
    ∃ Config_n s, Sch_Update_times .posix n Config = .ok ([], Config_n) ∧
      Config_n[i]? = some s ∧
      dueCount d p n = Nat.count (fun k => d + k * p < n) n ∧
      s.RunMe = ((dueCount d p n : Int) + 128) % 256 - 128 ∧
      (s.RunMe = (dueCount d p n : Int) ↔ dueCount d p n ≤ 127) ∧
      (dueCount d p n = 128 →
        s.RunMe = -128 ∧
        ∃ calls Config', Sch_DispatchTasks Config_n = .ok (calls, Config') ∧
          calls.filter (fun c => decide (c.TaskId = i)) = [] ∧
          Config'[i]? = some s) := by
  obtain ⟨Config_n, hupd, hlen, hslot⟩ :=
    added_slot_after_ticks Config0 Config f d p i n hcap hp hp32 hd32 hadd
  have hR : (slotAfterTicks f d p n).RunMe = ((dueCount d p n : Int) + 128) % 256 - 128 := rfl
  refine ⟨Config_n, _, hupd, hslot, dueCount_eq_count d p n hp, hR, ?_, ?_⟩
  · rw [hR]
    omega
  · intro h128
    have hneg : (slotAfterTicks f d p n).RunMe = -128 := by
      rw [hR, h128]
      decide
    have hidle : (slotAfterTicks f d p n).Task = none ∨ (slotAfterTicks f d p n).RunMe ≤ 0 :=
      Or.inr (by rw [hneg]; decide)
    refine ⟨hneg, _, _, Sch_DispatchTasks_eq Config_n (by rw [hlen]; exact hcap), ?_, ?_⟩
    · rw [callsFrom_zero_filter Config_n i _ hslot, Sch_DispatchTasks_call_idle i _ hidle]
    · rw [List.getElem?_map, hslot, Option.map_some', Sch_DispatchTasks_slot_idle _ hidle]

/-- C18, an instance: `d = 0`, `p = 1`, `128` ticks, so `m = 128`. -/
theorem C18_witness :
    ∃ Config_n s, Sch_Update_times .posix 128 [⟨some 1, 0, 1, 0⟩] = .ok ([], Config_n) ∧
      Config_n[0]? = some s ∧
      dueCount 0 1 128 = Nat.count (fun k => 0 + k * 1 < 128) 128 ∧
      s.RunMe = ((dueCount 0 1 128 : Int) + 128) % 256 - 128 ∧
      (s.RunMe = (dueCount 0 1 128 : Int) ↔ dueCount 0 1 128 ≤ 127) ∧
      (dueCount 0 1 128 = 128 →
        s.RunMe = -128 ∧
        ∃ calls Config', Sch_DispatchTasks Config_n = .ok (calls, Config') ∧
          calls.filter (fun c => decide (c.TaskId = 0)) = [] ∧
          Config'[0]? = some s) :=
  C18_RunMe_signed_8_bit [freeSlot] [⟨some 1, 0, 1, 0⟩] 1 0 1 0 128
    (by decide) (by decide) (by decide) (by decide) (by decide)

/-! ## The array accesses of `Sch_AddTask` -/

theorem Sch_AddTask_scan_accesses_free (beyond : Nat → Option Nat) :
    ∀ (m fuel k : Nat) (Config : Table) (i : Nat) (log : List Access),
      k + m = i → m < fuel → i < 256 →
      slotFree Config i = true → (∀ j, k ≤ j → j < i → slotFree Config j = false) →
      Sch_AddTask_scan_accesses beyond fuel k Config log
        = .ok (i, log ++ (List.range' k (m + 1)).map Access.read) := by
  intro m
  induction m with
  | zero =>
    intro fuel k Config i log hk hf _ hfree _
    obtain ⟨f, rfl⟩ : ∃ f, fuel = f + 1 := ⟨fuel - 1, by omega⟩
    obtain rfl : k = i := by omega
    obtain ⟨s, hs, hnone⟩ := slotFree_true_iff.mp hfree
    rw [Sch_AddTask_scan_accesses]
    simp [Sch_AddTask_readTask, hs, hnone]
  | succ m ih =>
    intro fuel k Config i log hk hf hi hfree hocc
    obtain ⟨f, rfl⟩ : ∃ f, fuel = f + 1 := ⟨fuel - 1, by omega⟩
    obtain ⟨s, hs, _⟩ := slotFree_true_iff.mp hfree
    have hlen : i < Config.length := lt_length_of_getElem? hs
    have hklt : k < Config.length := by omega
    obtain ⟨t, ht, hsome⟩ := (slotFree_false_iff hklt).mp (hocc k (Nat.le_refl k) (by omega))
    rw [Sch_AddTask_scan_accesses]
    simp only [Sch_AddTask_readTask, ht, SCH_MAX_TASKS, hklt, hsome, ne_eq, not_false_eq_true,
      and_self, if_true]
    rw [incr8_of_lt (by omega),
      ih f (k + 1) Config i _ (by omega) (by omega) hi hfree
        (fun j hj1 hj2 => hocc j (by omega) hj2)]
    simp [List.range'_succ]

theorem Sch_AddTask_scan_accesses_full (beyond : Nat → Option Nat) :
    ∀ (m fuel k : Nat) (Config : Table) (log : List Access),
      k + m = Config.length → m < fuel → Config.length ≤ 255 →
      (∀ j, k ≤ j → j < Config.length → slotFree Config j = false) →
      Sch_AddTask_scan_accesses beyond fuel k Config log
        = .ok (Config.length, log ++ (List.range' k (m + 1)).map Access.read) := by
  intro m
  induction m with
  | zero =>
    intro fuel k Config log hk hf _ _
    obtain ⟨f, rfl⟩ : ∃ f, fuel = f + 1 := ⟨fuel - 1, by omega⟩
    obtain rfl : k = Config.length := by omega
    rw [Sch_AddTask_scan_accesses]
    simp [SCH_MAX_TASKS]
  | succ m ih =>
    intro fuel k Config log hk hf hN hocc
    obtain ⟨f, rfl⟩ : ∃ f, fuel = f + 1 := ⟨fuel - 1, by omega⟩
    have hklt : k < Config.length := by omega
    obtain ⟨t, ht, hsome⟩ := (slotFree_false_iff hklt).mp (hocc k (Nat.le_refl k) hklt)
    rw [Sch_AddTask_scan_accesses]
    simp only [Sch_AddTask_readTask, ht, SCH_MAX_TASKS, hklt, hsome, ne_eq, not_false_eq_true,
      and_self, if_true]
    rw [incr8_of_lt (by omega),
      ih f (k + 1) Config _ (by omega) (by omega) hN (fun j hj1 hj2 => hocc j (by omega) hj2)]
    simp [List.range'_succ]

theorem Sch_AddTask_accesses_free (beyond : Nat → Option Nat) (Config : Table) (i : Nat)
    (hi : i < 256) (hfree : slotFree Config i = true)
    (hlow : ∀ j, j < i → slotFree Config j = false) :
    Sch_AddTask_accesses beyond Config
      = .ok (i, (List.range (i + 1)).map Access.read ++ [Access.write i]) := by
  unfold Sch_AddTask_accesses
  rw [Sch_AddTask_scan_accesses_free beyond i 256 0 Config i [] (by omega) (by omega) hi hfree
    (fun j _ hj => hlow j hj)]
  simp [List.range_eq_range']

theorem Sch_AddTask_accesses_full (beyond : Nat → Option Nat) (Config : Table)
    (hN : Config.length ≤ 255) (hfull : ∀ j, j < Config.length → slotFree Config j = false) :
    Sch_AddTask_accesses beyond Config
      = .ok (Config.length,
          (List.range (Config.length + 1)).map Access.read ++ [Access.write Config.length]) := by
  unfold Sch_AddTask_accesses
  rw [Sch_AddTask_scan_accesses_full beyond Config.length 256 0 Config [] (by omega) (by omega) hN
    (fun j _ hj => hfull j hj)]
  simp [List.range_eq_range']

theorem index_le_of_mem_accesses (i : Nat) (a : Access)
    (ha : a ∈ (List.range (i + 1)).map Access.read ++ [Access.write i]) : a.index ≤ i := by
  rcases List.mem_append.mp ha with h | h
  · obtain ⟨k, hk, rfl⟩ := List.mem_map.mp h
    have := List.mem_range.mp hk
    simp only [Access.index]
    omega
  · rw [List.mem_singleton.mp h]
    simp [Access.index]

theorem full_of_no_free (Config : Table) (h : ¬ ∃ j, slotFree Config j = true) :
    ∀ j, j < Config.length → slotFree Config j = false := by
  intro j _
  cases hj : slotFree Config j with
  | false => rfl
  | true => exact absurd ⟨j, hj⟩ h

/-- C17: `Sch_AddTask` reads and writes only indices below `SCH_MAX_TASKS` if
and only if the table has a free slot. With a free slot the search ends at the
lowest free index `TaskId < SCH_MAX_TASKS` after testing the slots `0 .. TaskId`,
the store goes to that slot, and `Sch_AddTask` has a result. On a full table the
search tests the slots `0 .. SCH_MAX_TASKS`, the last one past the end of the
array (the slot is tested before the bound), ends with `TaskId = SCH_MAX_TASKS`
whatever that read finds, and the store goes to `Config[SCH_MAX_TASKS]`. -/
theorem C17_Sch_AddTask_accesses_in_range_iff_free (v : Variant) (Config : Table)
    (beyond : Nat → Option Nat) (hcap : SCH_MAX_TASKS Config ≤ 255) :
    ∃ TaskId log, Sch_AddTask_accesses beyond Config = .ok (TaskId, log) ∧
      ((∀ a ∈ log, a.index < SCH_MAX_TASKS Config) ↔ ∃ j, slotFree Config j = true) ∧
      ((∃ j, slotFree Config j = true) →
        TaskId < SCH_MAX_TASKS Config ∧ slotFree Config TaskId = true ∧
        log = (List.range (TaskId + 1)).map Access.read ++ [Access.write TaskId] ∧
        ∀ (Function : Option Nat) (d p : Nat),
          ∃ Config', Sch_AddTask v Config Function d p = .ok (TaskId, Config')) ∧
      ((∀ j, j < SCH_MAX_TASKS Config → slotFree Config j = false) →
        TaskId = SCH_MAX_TASKS Config ∧
        log = (List.range (SCH_MAX_TASKS Config + 1)).map Access.read
                ++ [Access.write (SCH_MAX_TASKS Config)] ∧
        ∀ (Function : Option Nat) (d p : Nat),
          Sch_AddTask v Config Function d p = .error (.OutOfBounds (SCH_MAX_TASKS Config))) := by
  simp only [SCH_MAX_TASKS] at hcap ⊢
  by_cases hfree : ∃ j, slotFree Config j = true
  · obtain ⟨i, hi, hlow⟩ := exists_lowest_free Config hfree
    have hlen := slotFree_lt_length hi
    refine ⟨i, _, Sch_AddTask_accesses_free beyond Config i (by omega) hi hlow, ?_, ?_, ?_⟩
    · refine ⟨fun _ => hfree, fun _ a ha => ?_⟩
      have := index_le_of_mem_accesses i a ha
      omega
    · intro _
      exact ⟨hlen, hi, rfl, fun F d p => ⟨_, Sch_AddTask_eq v Config F d p i (by omega) hi hlow⟩⟩
    · intro hfull
      have := hfull i hlen
      rw [hi] at this
      exact Bool.noConfusion this
  · have hfull := full_of_no_free Config hfree
    refine ⟨Config.length, _, Sch_AddTask_accesses_full beyond Config hcap hfull, ?_, ?_, ?_⟩
    · refine ⟨fun h => ?_, fun h => absurd h hfree⟩
      have := h (Access.write Config.length) (by simp)
      simp [Access.index] at this
    · intro h
      exact absurd h hfree
    · intro _
      refine ⟨rfl, rfl, fun F d p => ?_⟩
      unfold Sch_AddTask
      rw [Sch_AddTask_scan_full Config.length 256 0 Config (by simp) (by omega) hcap
        (fun j _ hj => hfull j hj)]

/-- C17, an instance: a full table of two slots, with a non-`NULL` word behind
the array. -/
theorem C17_witness :
    ∃ TaskId log,
      Sch_AddTask_accesses (fun _ => some 5) [⟨some 1, 0, 100, 0⟩, ⟨some 2, 1, 50, 0⟩]
        = .ok (TaskId, log) ∧
      ((∀ a ∈ log, a.index < SCH_MAX_TASKS [⟨some 1, 0, 100, 0⟩, ⟨some 2, 1, 50, 0⟩]) ↔
        ∃ j, slotFree [⟨some 1, 0, 100, 0⟩, ⟨some 2, 1, 50, 0⟩] j = true) ∧
      ((∃ j, slotFree [⟨some 1, 0, 100, 0⟩, ⟨some 2, 1, 50, 0⟩] j = true) →
        TaskId < SCH_MAX_TASKS [⟨some 1, 0, 100, 0⟩, ⟨some 2, 1, 50, 0⟩] ∧
        slotFree [⟨some 1, 0, 100, 0⟩, ⟨some 2, 1, 50, 0⟩] TaskId = true ∧
        log = (List.range (TaskId + 1)).map Access.read ++ [Access.write TaskId] ∧
        ∀ (Function : Option Nat) (d p : Nat),
          ∃ Config', Sch_AddTask .posix [⟨some 1, 0, 100, 0⟩, ⟨some 2, 1, 50, 0⟩] Function d p
            = .ok (TaskId, Config')) ∧
      ((∀ j, j < SCH_MAX_TASKS [⟨some 1, 0, 100, 0⟩, ⟨some 2, 1, 50, 0⟩] →
          slotFree [⟨some 1, 0, 100, 0⟩, ⟨some 2, 1, 50, 0⟩] j = false) →
        TaskId = SCH_MAX_TASKS [⟨some 1, 0, 100, 0⟩, ⟨some 2, 1, 50, 0⟩] ∧
        log = (List.range (SCH_MAX_TASKS [⟨some 1, 0, 100, 0⟩, ⟨some 2, 1, 50, 0⟩] + 1)).map
                Access.read
                ++ [Access.write (SCH_MAX_TASKS [⟨some 1, 0, 100, 0⟩, ⟨some 2, 1, 50, 0⟩])] ∧
        ∀ (Function : Option Nat) (d p : Nat),
          Sch_AddTask .posix [⟨some 1, 0, 100, 0⟩, ⟨some 2, 1, 50, 0⟩] Function d p
            = .error (.OutOfBounds (SCH_MAX_TASKS [⟨some 1, 0, 100, 0⟩, ⟨some 2, 1, 50, 0⟩]))) :=
  C17_Sch_AddTask_accesses_in_range_iff_free .posix [⟨some 1, 0, 100, 0⟩, ⟨some 2, 1, 50, 0⟩]
    (fun _ => some 5) (by decide)

/-! ## Sequences of calls -/

theorem hasFreeSlot_iff (Config : Table) :
    hasFreeSlot Config = true ↔ ∃ j, slotFree Config j = true := by
  unfold hasFreeSlot
  rw [List.any_eq_true]
  constructor
  · rintro ⟨s, hmem, hs⟩
    obtain ⟨n, hn⟩ := List.mem_iff_getElem?.mp hmem
    exact ⟨n, slotFree_true_iff.mpr ⟨s, hn, Option.isNone_iff_eq_none.mp hs⟩⟩
  · rintro ⟨j, hj⟩
    obtain ⟨s, hs, hnone⟩ := slotFree_true_iff.mp hj
    exact ⟨s, List.mem_iff_getElem?.mpr ⟨j, hs⟩, Option.isNone_iff_eq_none.mpr hnone⟩

theorem Sch_Update_tick_frame (v : Variant) (s : TaskConfig_t) :
    (Sch_Update_tick v s).Task = s.Task ∧ (Sch_Update_tick v s).Period = s.Period ∧
    (s.Task = none → Sch_Update_tick v s = s) := by
  cases v
  · exact Sch_Update_slot_frame .posix s
  · obtain ⟨h1, h2, h3⟩ := Sch_Update_slot_frame .template s
    obtain ⟨g1, g2, _, g4⟩ := Sch_DispatchTasks_slot_frame (Sch_Update_slot .template s)
    refine ⟨?_, ?_, ?_⟩
    · show (Sch_DispatchTasks_slot (Sch_Update_slot .template s)).Task = s.Task
      rw [g1, h1]
    · show (Sch_DispatchTasks_slot (Sch_Update_slot .template s)).Period = s.Period
      rw [g2, h2]
    · intro hT
      show Sch_DispatchTasks_slot (Sch_Update_slot .template s) = s
      rw [h3 hT, Sch_DispatchTasks_slot_idle s (Or.inl hT)]

theorem Sch_Update_eq_tick (v : Variant) (Config : Table) (hN : Config.length ≤ 255) :
    ∃ calls, Sch_Update v Config = .ok (calls, Config.map (Sch_Update_tick v)) := by
  cases v
  · exact ⟨[], Sch_Update_posix_eq Config hN⟩
  · refine ⟨callsFrom 0 (Config.map (Sch_Update_slot .template)), ?_⟩
    rw [Sch_Update_template_eq Config hN, List.map_map]
    rfl

theorem Op_apply_AddTask (v : Variant) (Config : Table) (Function : Option Nat) (d p : Nat)
    (hN : Config.length ≤ 255) (hfree : hasFreeSlot Config = true) :
    ∃ i, slotFree Config i = true ∧ (∀ j, j < i → slotFree Config j = false) ∧
      Sch_AddTask v Config Function d p = .ok (i, Config.set i
        { Task := Function, Delay := d % 2 ^ v.delayBits, Period := p, RunMe := 0 }) ∧
      Op.apply v Config (.AddTask Function d p) = .ok (Config.set i
        { Task := Function, Delay := d % 2 ^ v.delayBits, Period := p, RunMe := 0 }) := by
  obtain ⟨i, hi, hlow⟩ := exists_lowest_free Config ((hasFreeSlot_iff Config).mp hfree)
  have hlen := slotFree_lt_length hi
  have hadd := Sch_AddTask_eq v Config Function d p i (by omega) hi hlow
  refine ⟨i, hi, hlow, hadd, ?_⟩
  simp only [Op.apply, hadd]

theorem Op_apply_DeleteTask (v : Variant) (Config : Table) (j : Nat) (hj : j < Config.length) :
    Op.apply v Config (.DeleteTask j) = .ok (Config.set j freeSlot) := by
  simp [Op.apply, Sch_DeleteTask, hj]

theorem Op_apply_Update (v : Variant) (Config : Table) (hN : Config.length ≤ 255) :
    Op.apply v Config .Update = .ok (Config.map (Sch_Update_tick v)) := by
  obtain ⟨calls, h⟩ := Sch_Update_eq_tick v Config hN
  simp only [Op.apply, h]

theorem Op_apply_DispatchTasks (v : Variant) (Config : Table) (hN : Config.length ≤ 255) :
    Op.apply v Config .DispatchTasks = .ok (Config.map Sch_DispatchTasks_slot) := by
  simp only [Op.apply, Sch_DispatchTasks_eq Config hN]

theorem runOps_invariant (pre : Table → Op → Bool) (v : Variant) (I : Table → Prop)
    (hstep : ∀ (C : Table) (op : Op), C.length ≤ 255 → I C → pre C op = true →
      ∃ C', op.apply v C = .ok C' ∧ C'.length = C.length ∧ I C') :
    ∀ (ops : List Op) (C : Table), C.length ≤ 255 → I C → admissible pre v C ops = true →
      ∃ C', runOps v C ops = .ok C' ∧ C'.length = C.length ∧ I C' := by
  intro ops
  induction ops with
  | nil => intro C _ hI _; exact ⟨C, rfl, rfl, hI⟩
  | cons op ops ih =>
    intro C hN hI hadm
    rw [admissible, Bool.and_eq_true] at hadm
    obtain ⟨C1, happ, hlen, hI1⟩ := hstep C op hN hI hadm.1
    have hadm2 := hadm.2
    rw [happ] at hadm2
    obtain ⟨C2, hrun, hlen2, hI2⟩ := ih C1 (by omega) hI1 hadm2
    refine ⟨C2, ?_, by omega, hI2⟩
    rw [runOps, happ]
    exact hrun

/-- Each call allowed by `Op.keeps id` has a result and keeps the task and the
period of slot `id`. -/
theorem keeps_step (v : Variant) (id F p : Nat) (C : Table) (op : Op) (hN : C.length ≤ 255)
    (hI : ∃ s, C[id]? = some s ∧ s.Task = some F ∧ s.Period = p)
    (hpre : Op.keeps id C op = true) :
    ∃ C', op.apply v C = .ok C' ∧ C'.length = C.length ∧
      ∃ s, C'[id]? = some s ∧ s.Task = some F ∧ s.Period = p := by
  obtain ⟨s, hs, hT, hP⟩ := hI
  cases op with
  | AddTask F' d' p' =>
    obtain ⟨i, hi, _, _, happ⟩ := Op_apply_AddTask v C F' d' p' hN hpre
    have hne : i ≠ id := by
      rintro rfl
      obtain ⟨t, ht, htn⟩ := slotFree_true_iff.mp hi
      rw [hs] at ht
      injection ht with ht
      rw [← ht, hT] at htn
      cases htn
    refine ⟨_, happ, by simp, s, ?_, hT, hP⟩
    rw [List.getElem?_set_ne hne, hs]
  | DeleteTask j =>
    simp only [Op.keeps, Bool.and_eq_true, decide_eq_true_eq] at hpre
    refine ⟨_, Op_apply_DeleteTask v C j hpre.2, by simp, s, ?_, hT, hP⟩
    rw [List.getElem?_set_ne hpre.1, hs]
  | Update =>
    refine ⟨_, Op_apply_Update v C hN, by simp, Sch_Update_tick v s, ?_, ?_, ?_⟩
    · rw [List.getElem?_map, hs, Option.map_some']
    · rw [(Sch_Update_tick_frame v s).1, hT]
    · rw [(Sch_Update_tick_frame v s).2.1, hP]
  | DispatchTasks =>
    refine ⟨_, Op_apply_DispatchTasks v C hN, by simp, Sch_DispatchTasks_slot s, ?_, ?_, ?_⟩
    · rw [List.getElem?_map, hs, Option.map_some']
    · rw [(Sch_DispatchTasks_slot_frame s).1, hT]
    · rw [(Sch_DispatchTasks_slot_frame s).2.1, hP]

theorem valid_step (v : Variant) (C : Table) (op : Op) (hN : C.length ≤ 255)
    (hI : ∀ (i : Nat) (s : TaskConfig_t), C[i]? = some s → s.Task = none → s = freeSlot)
    (hpre : Op.valid C op = true) :
    ∃ C', op.apply v C = .ok C' ∧ C'.length = C.length ∧
      ∀ (i : Nat) (s : TaskConfig_t), C'[i]? = some s → s.Task = none → s = freeSlot := by
  cases op with
  | AddTask F' d' p' =>
    simp only [Op.valid, Bool.and_eq_true] at hpre
    obtain ⟨i, hi, _, _, happ⟩ := Op_apply_AddTask v C F' d' p' hN hpre.2
    have hlen := slotFree_lt_length hi
    refine ⟨_, happ, by simp, ?_⟩
    intro k s hk hT
    by_cases hki : i = k
    · subst hki
      rw [List.getElem?_set_self hlen] at hk
      injection hk with hk
      rw [← hk] at hT
      simp only at hT
      rw [hT] at hpre
      simp at hpre
    · rw [List.getElem?_set_ne hki] at hk
      exact hI k s hk hT
  | DeleteTask j =>
    simp only [Op.valid, decide_eq_true_eq] at hpre
    refine ⟨_, Op_apply_DeleteTask v C j hpre, by simp, ?_⟩
    intro k s hk hT
    by_cases hkj : j = k
    · subst hkj
      rw [List.getElem?_set_self hpre] at hk
      injection hk with hk
      exact hk.symm
    · rw [List.getElem?_set_ne hkj] at hk
      exact hI k s hk hT
  | Update =>
    refine ⟨_, Op_apply_Update v C hN, by simp, ?_⟩
    intro k s hk hT
    rw [List.getElem?_map] at hk
    cases h0 : C[k]? with
    | none => rw [h0] at hk; cases hk
    | some s0 =>
      rw [h0, Option.map_some'] at hk
      injection hk with hk
      subst hk
      have hT0 : s0.Task = none := by rw [← (Sch_Update_tick_frame v s0).1]; exact hT
      rw [(Sch_Update_tick_frame v s0).2.2 hT0]
      exact hI k s0 h0 hT0
  | DispatchTasks =>
    refine ⟨_, Op_apply_DispatchTasks v C hN, by simp, ?_⟩
    intro k s hk hT
    rw [List.getElem?_map] at hk
    cases h0 : C[k]? with
    | none => rw [h0] at hk; cases hk
    | some s0 =>
      rw [h0, Option.map_some'] at hk
      injection hk with hk
      subst hk
      have hT0 : s0.Task = none := by rw [← (Sch_DispatchTasks_slot_frame s0).1]; exact hT
      rw [(Sch_DispatchTasks_slot_frame s0).2.2.2 hT0]
      exact hI k s0 h0 hT0

/-- Every table reached from `Sch_Init` by valid calls has its free slots zeroed. -/
theorem reachable_free_slots_zeroed (v : Variant) (Config0 C0 : Table) (ops : List Op)
    (hcap : SCH_MAX_TASKS Config0 ≤ 255) (hinit : Sch_Init Config0 = .ok C0)
    (hops : admissible Op.valid v C0 ops = true) :
    ∃ C', runOps v C0 ops = .ok C' ∧ C'.length = Config0.length ∧
      ∀ (i : Nat) (s : TaskConfig_t), C'[i]? = some s → s.Task = none → s = freeSlot := by
  rw [Sch_Init_eq_map Config0 hcap] at hinit
  injection hinit with hinit
  subst hinit
  have hI0 : ∀ (i : Nat) (s : TaskConfig_t),
      (Config0.map (fun _ => freeSlot))[i]? = some s → s.Task = none → s = freeSlot := by
    intro i s hs _
    rw [List.getElem?_map] at hs
    cases h0 : Config0[i]? with
    | none => rw [h0] at hs; cases hs
    | some s0 => rw [h0, Option.map_some'] at hs; injection hs with hs; exact hs.symm
  obtain ⟨C', hrun, hlen, hI⟩ := runOps_invariant Op.valid v
    (fun C => ∀ (i : Nat) (s : TaskConfig_t), C[i]? = some s → s.Task = none → s = freeSlot)
    (fun C op hN hI hpre => valid_step v C op hN hI hpre) ops _
    (by rw [List.length_map]; exact hcap) hI0 hops
  exact ⟨C', hrun, by rw [hlen, List.length_map], hI⟩


/-- C15 (amended): the index returned by `Sch_AddTask` for a task that is not
`NULL` is a stable identifier. For every sequence of calls made after the add
returned `id` (every `Sch_AddTask` on a table that is not full, every
`Sch_DeleteTask(j)` with `j ≠ id` in range, `Sch_Update`, `Sch_DispatchTasks`) the
sequence has a result in which slot `id` still holds the same task and period and
is not free; and a slot is free exactly when its `Task` is `NULL`. -/
theorem C15_task_id_stable (v : Variant) (Config0 Config : Table) (F d p id : Nat)
    (ops : List Op) (hcap : SCH_MAX_TASKS Config0 ≤ 255)
    (hadd : Sch_AddTask v Config0 (some F) d p = .ok (id, Config))
    (hops : admissible (Op.keeps id) v Config ops = true) :
    ∃ Config', runOps v Config ops = .ok Config' ∧
      (∃ s, Config'[id]? = some s ∧ s.Task = some F ∧ s.Period = p) ∧
      slotFree Config' id = false ∧
      ∀ (i : Nat) (s : TaskConfig_t), Config'[i]? = some s →
        (slotFree Config' i = true ↔ s.Task = none) := by
  obtain ⟨hid, hC⟩ := Sch_AddTask_ok_inv v Config0 Config (some F) d p id hadd
  have hlen : Config.length = Config0.length := by rw [hC]; simp
  have hI0 : ∃ s, Config[id]? = some s ∧ s.Task = some F ∧ s.Period = p := by
    refine ⟨{ Task := some F, Delay := d % 2 ^ v.delayBits, Period := p, RunMe := 0 },
      ?_, rfl, rfl⟩
    rw [hC, List.getElem?_set_self hid]
  obtain ⟨C', hrun, _, s, hs, hT, hP⟩ := runOps_invariant (Op.keeps id) v
    (fun C => ∃ s, C[id]? = some s ∧ s.Task = some F ∧ s.Period = p)
    (fun C op hN hI hpre => keeps_step v id F p C op hN hI hpre) ops Config
    (by rw [hlen]; exact hcap) hI0 hops
  refine ⟨C', hrun, ⟨s, hs, hT, hP⟩, ?_, ?_⟩
  · rw [slotFree_false_iff (lt_length_of_getElem? hs)]
    exact ⟨s, hs, by rw [hT]; simp⟩
  · intro i t ht
    rw [slotFree_true_iff]
    constructor
    · rintro ⟨t', ht', hn⟩
      rw [ht] at ht'
      injection ht' with ht'
      rw [ht']
      exact hn
    · intro hn
      exact ⟨t, ht, hn⟩

/-- C15, an instance: six calls after the task `7` took slot 0 of three. -/
theorem C15_witness :
    ∃ Config', runOps .posix [⟨some 7, 0, 100, 0⟩, freeSlot, freeSlot]
        [.AddTask (some 8) 1 50, .Update, .DispatchTasks, .DeleteTask 1,
         .AddTask none 2 3, .Update] = .ok Config' ∧
      (∃ s, Config'[0]? = some s ∧ s.Task = some 7 ∧ s.Period = 100) ∧
      slotFree Config' 0 = false ∧
      ∀ (i : Nat) (s : TaskConfig_t), Config'[i]? = some s →
        (slotFree Config' i = true ↔ s.Task = none) :=
  C15_task_id_stable .posix [freeSlot, freeSlot, freeSlot]
    [⟨some 7, 0, 100, 0⟩, freeSlot, freeSlot] 7 0 100 0
    [.AddTask (some 8) 1 50, .Update, .DispatchTasks, .DeleteTask 1, .AddTask none 2 3, .Update]
    (by decide) (by decide) (by decide)

/-- C15 (counterexample): `Sch_AddTask(NULL, 5, 7)` on a free table returns `0`
and leaves slot 0 free; the next `Sch_AddTask`, made on a table with a free slot,
takes slot 0 again, which then holds another task and period. -/
theorem C15_null_callback_id_reused :
    Sch_AddTask .posix [freeSlot] none 5 7 = .ok (0, [⟨none, 5, 7, 0⟩]) ∧
    admissible (Op.keeps 0) .posix [⟨none, 5, 7, 0⟩] [.AddTask (some 1) 1 2] = true ∧
    runOps .posix [⟨none, 5, 7, 0⟩] [.AddTask (some 1) 1 2] = .ok [⟨some 1, 1, 2, 0⟩] := by
  decide

/-- C19: in every table reached from `Sch_Init` by a sequence of `Sch_AddTask`
(task not `NULL`, table not full), `Sch_DeleteTask` (id in range), `Sch_Update` and
`Sch_DispatchTasks`, the sequence has a result and every free slot has `Delay = 0`,
`Period = 0` and `RunMe = 0`. One more `Sch_AddTask` with a `NULL` task and a
non-zero delay or period leaves a free slot whose `Delay` or `Period` is not `0`. -/
theorem C19_free_slots_zeroed (v : Variant) (Config0 C0 : Table) (ops : List Op)
    (hcap : SCH_MAX_TASKS Config0 ≤ 255) (hinit : Sch_Init Config0 = .ok C0)
    (hops : admissible Op.valid v C0 ops = true) :
    ∃ Config, runOps v C0 ops = .ok Config ∧
      (∀ (i : Nat) (s : TaskConfig_t), Config[i]? = some s → s.Task = none →
        s.Delay = 0 ∧ s.Period = 0 ∧ s.RunMe = 0) ∧
      ∀ (d p : Nat), d < 2 ^ v.delayBits → (d ≠ 0 ∨ p ≠ 0) → hasFreeSlot Config = true →
        ∃ i Config', Sch_AddTask v Config none d p = .ok (i, Config') ∧
          ∃ s, Config'[i]? = some s ∧ s.Task = none ∧ (s.Delay ≠ 0 ∨ s.Period ≠ 0) := by
  obtain ⟨C, hrun, hlen, hI⟩ := reachable_free_slots_zeroed v Config0 C0 ops hcap hinit hops
  refine ⟨C, hrun, ?_, ?_⟩
  · intro i s hs hT
    rw [hI i s hs hT]
    exact ⟨rfl, rfl, rfl⟩
  · intro d p hd hdp hfree
    obtain ⟨i, hi, _, hadd, _⟩ := Op_apply_AddTask v C none d p (by rw [hlen]; exact hcap) hfree
    refine ⟨i, _, hadd, _, List.getElem?_set_self (slotFree_lt_length hi), rfl, ?_⟩
    simp only
    rw [Nat.mod_eq_of_lt hd]
    exact hdp

/-- C19, an instance: six calls on a table of two slots. -/
theorem C19_witness :
    ∃ Config, runOps .posix [freeSlot, freeSlot]
        [.AddTask (some 1) 0 100, .Update, .AddTask (some 2) 1 50, .DispatchTasks,
         .DeleteTask 0, .Update] = .ok Config ∧
      (∀ (i : Nat) (s : TaskConfig_t), Config[i]? = some s → s.Task = none →
        s.Delay = 0 ∧ s.Period = 0 ∧ s.RunMe = 0) ∧
      ∀ (d p : Nat), d < 2 ^ Variant.delayBits .posix → (d ≠ 0 ∨ p ≠ 0) →
        hasFreeSlot Config = true →
        ∃ i Config', Sch_AddTask .posix Config none d p = .ok (i, Config') ∧
          ∃ s, Config'[i]? = some s ∧ s.Task = none ∧ (s.Delay ≠ 0 ∨ s.Period ≠ 0) :=
  C19_free_slots_zeroed .posix [⟨some 9, 5, 6, 7⟩, ⟨some 3, 1, 1, 1⟩] [freeSlot, freeSlot]
    [.AddTask (some 1) 0 100, .Update, .AddTask (some 2) 1 50, .DispatchTasks,
     .DeleteTask 0, .Update]
    (by decide) (by decide) (by decide)

theorem Sch_Update_slot_schedule_congr (v : Variant) (s t : TaskConfig_t)
    (hT : s.Task = t.Task) (hD : s.Delay = t.Delay) (hP : s.Period = t.Period) :
    (Sch_Update_slot v s).Task = (Sch_Update_slot v t).Task ∧
    (Sch_Update_slot v s).Delay = (Sch_Update_slot v t).Delay ∧
    (Sch_Update_slot v s).Period = (Sch_Update_slot v t).Period := by
  unfold Sch_Update_slot
  by_cases h1 : t.Task = none
  · simp [hT, hD, hP, h1]
  · by_cases h2 : t.Delay = 0
    · simp [hT, hD, hP, h1, h2]
    · simp [hT, hD, hP, h1, h2]

theorem Sch_Update_slot_iterate_schedule_congr (v : Variant) (s t : TaskConfig_t)
    (hT : s.Task = t.Task) (hD : s.Delay = t.Delay) (hP : s.Period = t.Period) :
    ∀ n, ((Sch_Update_slot v)^[n] s).Task = ((Sch_Update_slot v)^[n] t).Task ∧
      ((Sch_Update_slot v)^[n] s).Delay = ((Sch_Update_slot v)^[n] t).Delay ∧
      ((Sch_Update_slot v)^[n] s).Period = ((Sch_Update_slot v)^[n] t).Period := by
  intro n
  induction n with
  | zero => exact ⟨hT, hD, hP⟩
  | succ n ih =>
    rw [Function.iterate_succ_apply', Function.iterate_succ_apply']
    exact Sch_Update_slot_schedule_congr v _ _ ih.1 ih.2.1 ih.2.2

/-- C21: `Sch_DispatchTasks` changes only `RunMe`: every slot keeps its `Task`,
`Delay` and `Period`, so the same slots are occupied afterwards, and the ticks that
follow see the same schedule: after any number of calls of `Sch_Update` the
`Task`, `Delay` and `Period` of every slot are the same with and without the
dispatch. -/
theorem C21_Sch_DispatchTasks_frame (Config : Table) (hcap : SCH_MAX_TASKS Config ≤ 255) :
    ∃ calls Config', Sch_DispatchTasks Config = .ok (calls, Config') ∧
      SCH_MAX_TASKS Config' = SCH_MAX_TASKS Config ∧
      (∀ (i : Nat) (s : TaskConfig_t), Config[i]? = some s →
        ∃ s', Config'[i]? = some s' ∧
          s'.Task = s.Task ∧ s'.Delay = s.Delay ∧ s'.Period = s.Period) ∧
      (∀ i, slotFree Config' i = slotFree Config i) ∧
      ∀ n, ∃ A B, Sch_Update_times .posix n Config = .ok ([], A) ∧
        Sch_Update_times .posix n Config' = .ok ([], B) ∧
        ∀ (i : Nat) (a b : TaskConfig_t), A[i]? = some a → B[i]? = some b →
          a.Task = b.Task ∧ a.Delay = b.Delay ∧ a.Period = b.Period := by
  have hN' : (Config.map Sch_DispatchTasks_slot).length ≤ 255 := by
    rw [List.length_map]; exact hcap
  refine ⟨_, _, Sch_DispatchTasks_eq Config hcap, by simp [SCH_MAX_TASKS], ?_, ?_, ?_⟩
  · intro i s hs
    obtain ⟨h1, h2, h3, _⟩ := Sch_DispatchTasks_slot_frame s
    exact ⟨Sch_DispatchTasks_slot s, by rw [List.getElem?_map, hs, Option.map_some'], h1, h3, h2⟩
  · intro i
    unfold slotFree
    rw [List.getElem?_map]
    cases h0 : Config[i]? with
    | none => rfl
    | some s => simp only [Option.map_some', (Sch_DispatchTasks_slot_frame s).1]
  · intro n
    refine ⟨_, _, Sch_Update_times_posix_eq n Config hcap,
      Sch_Update_times_posix_eq n _ hN', ?_⟩
    intro i a b ha hb
    rw [List.getElem?_map] at ha
    rw [List.getElem?_map, List.getElem?_map] at hb
    cases h0 : Config[i]? with
    | none => rw [h0] at ha; cases ha
    | some s =>
      rw [h0, Option.map_some'] at ha
      rw [h0, Option.map_some', Option.map_some'] at hb
      injection ha with ha
      injection hb with hb
      subst ha
      subst hb
      obtain ⟨h1, h2, h3, _⟩ := Sch_DispatchTasks_slot_frame s
      exact Sch_Update_slot_iterate_schedule_congr .posix s (Sch_DispatchTasks_slot s)
        h1.symm h3.symm h2.symm n

/-- C21, an instance: a due slot, an idle slot and a free slot. -/
theorem C21_witness :
    ∃ calls Config',
      Sch_DispatchTasks [⟨some 7, 99, 100, 2⟩, ⟨some 8, 0, 50, 0⟩, freeSlot] = .ok (calls, Config') ∧
      SCH_MAX_TASKS Config' = SCH_MAX_TASKS [⟨some 7, 99, 100, 2⟩, ⟨some 8, 0, 50, 0⟩, freeSlot] ∧
      (∀ (i : Nat) (s : TaskConfig_t),
        ([⟨some 7, 99, 100, 2⟩, ⟨some 8, 0, 50, 0⟩, freeSlot] : Table)[i]? = some s →
        ∃ s', Config'[i]? = some s' ∧
          s'.Task = s.Task ∧ s'.Delay = s.Delay ∧ s'.Period = s.Period) ∧
      (∀ i, slotFree Config' i
        = slotFree [⟨some 7, 99, 100, 2⟩, ⟨some 8, 0, 50, 0⟩, freeSlot] i) ∧
      ∀ n, ∃ A B,
        Sch_Update_times .posix n [⟨some 7, 99, 100, 2⟩, ⟨some 8, 0, 50, 0⟩, freeSlot]
          = .ok ([], A) ∧
        Sch_Update_times .posix n Config' = .ok ([], B) ∧
        ∀ (i : Nat) (a b : TaskConfig_t), A[i]? = some a → B[i]? = some b →
          a.Task = b.Task ∧ a.Delay = b.Delay ∧ a.Period = b.Period :=
  C21_Sch_DispatchTasks_frame [⟨some 7, 99, 100, 2⟩, ⟨some 8, 0, 50, 0⟩, freeSlot] (by decide)

theorem Sch_Update_slot_variants_agree (s : TaskConfig_t)
    (h : s.Task ≠ none → s.Delay < 2 ^ 16 ∧ (s.Period + 2 ^ 32 - 1) % 2 ^ 32 < 2 ^ 16 ∧
      0 ≤ s.RunMe ∧ s.RunMe ≤ 126) :
    Sch_Update_slot .template s = Sch_Update_slot .posix s := by
  by_cases hT : s.Task = none
  · rw [Sch_Update_slot_free .template s hT, Sch_Update_slot_free .posix s hT]
  · obtain ⟨_, h2, h3, h4⟩ := h hT
    by_cases hD : s.Delay = 0
    · rw [Sch_Update_slot_due .template s hT hD, Sch_Update_slot_due .posix s hT hD]
      simp only [Variant.wrapRunMe, Variant.delayBits, TaskConfig_t.mk.injEq, true_and]
      constructor <;> omega
    · rw [Sch_Update_slot_wait .template s hT (Nat.pos_of_ne_zero hD),
        Sch_Update_slot_wait .posix s hT (Nat.pos_of_ne_zero hD)]

/-- C22: on every table whose occupied slots have `Delay` and `Period - 1`
(as `uint32_t`) below `2 ^ 16` and `RunMe` within `0 .. 126`, `Sch_Update` of
`src/template/sch.c` gives the same table and the same sequence of calls as
`Sch_Update` of `src/sch.c` followed by one `Sch_DispatchTasks`. The two differ
beyond 16 bits: a due slot whose `Period - 1` is `2 ^ 16` or more gets another
`Delay` in the template, and a task added with a delay of `2 ^ 16` or more is
stored with `Delay` reduced modulo `2 ^ 16` in the template. -/
theorem C22_variants_agree (Config : Table) (hcap : SCH_MAX_TASKS Config ≤ 255)
    (hfit : ∀ (i : Nat) (s : TaskConfig_t), Config[i]? = some s → s.Task ≠ none →
      s.Delay < 2 ^ 16 ∧ (s.Period + 2 ^ 32 - 1) % 2 ^ 32 < 2 ^ 16 ∧
      0 ≤ s.RunMe ∧ s.RunMe ≤ 126) :
    (∃ calls Config' Config1, Sch_Update .template Config = .ok (calls, Config') ∧
      Sch_Update .posix Config = .ok ([], Config1) ∧
      Sch_DispatchTasks Config1 = .ok (calls, Config')) ∧
    (∀ (s : TaskConfig_t), s.Task ≠ none → s.Delay = 0 →
      2 ^ 16 ≤ (s.Period + 2 ^ 32 - 1) % 2 ^ 32 →
      (Sch_Update_slot .template s).Delay ≠ (Sch_Update_slot .posix s).Delay) ∧
    (∀ (Function : Option Nat) (d p : Nat), 2 ^ 16 ≤ d → d < 2 ^ 32 →
      hasFreeSlot Config = true →
      ∃ i C_posix C_template,
        Sch_AddTask .posix Config Function d p = .ok (i, C_posix) ∧
        Sch_AddTask .template Config Function d p = .ok (i, C_template) ∧
        C_posix[i]? = some ⟨Function, d, p, 0⟩ ∧
        C_template[i]? = some ⟨Function, d % 2 ^ 16, p, 0⟩ ∧
        d % 2 ^ 16 ≠ d) := by
  have hmap : Config.map (Sch_Update_slot .template) = Config.map (Sch_Update_slot .posix) := by
    apply List.map_congr_left
    intro s hs
    obtain ⟨n, hn⟩ := List.mem_iff_getElem?.mp hs
    exact Sch_Update_slot_variants_agree s (hfit n s hn)
  refine ⟨⟨_, _, _, Sch_Update_template_eq Config hcap, Sch_Update_posix_eq Config hcap, ?_⟩,
    ?_, ?_⟩
  · rw [Sch_DispatchTasks_eq _ (by rw [List.length_map]; exact hcap), hmap]
  · intro s hT hD hbig
    rw [Sch_Update_slot_due .template s hT hD, Sch_Update_slot_due .posix s hT hD]
    simp only [Variant.delayBits]
    omega
  · intro F d p hd hd32 hfree
    obtain ⟨i, hi, hlow⟩ := exists_lowest_free Config ((hasFreeSlot_iff Config).mp hfree)
    have hlen := slotFree_lt_length hi
    have hi256 : i < 256 := by simp only [SCH_MAX_TASKS] at hcap; omega
    refine ⟨i, _, _, Sch_AddTask_eq .posix Config F d p i hi256 hi hlow,
      Sch_AddTask_eq .template Config F d p i hi256 hi hlow, ?_, ?_, ?_⟩
    · rw [List.getElem?_set_self hlen]
      simp only [Variant.delayBits, Option.some.injEq, TaskConfig_t.mk.injEq, true_and, and_true]
      omega
    · rw [List.getElem?_set_self hlen]
      rfl
    · omega

/-- C22, an instance: a due slot, a waiting slot with `RunMe = 3` and a free
slot. -/
theorem C22_witness :
    (∃ calls Config' Config1,
      Sch_Update .template [⟨some 7, 0, 100, 0⟩, ⟨some 8, 1, 50, 3⟩, freeSlot]
        = .ok (calls, Config') ∧
      Sch_Update .posix [⟨some 7, 0, 100, 0⟩, ⟨some 8, 1, 50, 3⟩, freeSlot] = .ok ([], Config1) ∧
      Sch_DispatchTasks Config1 = .ok (calls, Config')) ∧
    (∀ (s : TaskConfig_t), s.Task ≠ none → s.Delay = 0 →
      2 ^ 16 ≤ (s.Period + 2 ^ 32 - 1) % 2 ^ 32 →
      (Sch_Update_slot .template s).Delay ≠ (Sch_Update_slot .posix s).Delay) ∧
    (∀ (Function : Option Nat) (d p : Nat), 2 ^ 16 ≤ d → d < 2 ^ 32 →
      hasFreeSlot [⟨some 7, 0, 100, 0⟩, ⟨some 8, 1, 50, 3⟩, freeSlot] = true →
      ∃ i C_posix C_template,
        Sch_AddTask .posix [⟨some 7, 0, 100, 0⟩, ⟨some 8, 1, 50, 3⟩, freeSlot] Function d p
          = .ok (i, C_posix) ∧
        Sch_AddTask .template [⟨some 7, 0, 100, 0⟩, ⟨some 8, 1, 50, 3⟩, freeSlot] Function d p
          = .ok (i, C_template) ∧
        C_posix[i]? = some ⟨Function, d, p, 0⟩ ∧
        C_template[i]? = some ⟨Function, d % 2 ^ 16, p, 0⟩ ∧
        d % 2 ^ 16 ≠ d) :=
  C22_variants_agree [⟨some 7, 0, 100, 0⟩, ⟨some 8, 1, 50, 3⟩, freeSlot] (by decide) (by
    intro i s hs hT
    match i, hs with
    | 0, hs => injection hs with hs; subst hs; decide
    | 1, hs => injection hs with hs; subst hs; decide
    | 2, hs => injection hs with hs; subst hs; exact absurd rfl hT
    | (n + 3), hs => cases hs)



theorem incr8_lt (k : Nat) : incr8 k < 256 := by
  unfold incr8; omega

theorem scanIndices_spec (N : Nat) (hN : N ≤ 255) :
    ∀ (m fuel k : Nat) (seen : List Nat), k + m = N → m < fuel →
      scanIndices N fuel k seen = .ok (seen ++ List.range' k m) := by
  intro m
  induction m with
  | zero =>
    intro fuel k seen hk hf
    obtain ⟨f, rfl⟩ : ∃ f, fuel = f + 1 := ⟨fuel - 1, by omega⟩
    rw [scanIndices, if_neg (by omega)]
    simp
  | succ m ih =>
    intro fuel k seen hk hf
    obtain ⟨f, rfl⟩ : ∃ f, fuel = f + 1 := ⟨fuel - 1, by omega⟩
    rw [scanIndices, if_pos (by omega), incr8_of_lt (by omega),
      ih f (k + 1) _ (by omega) (by omega)]
    simp [List.range'_succ]

theorem scanIndices_short (N : Nat) (hN : N ≤ 255) :
    ∀ (fuel k : Nat) (seen : List Nat), k + fuel ≤ N →
      scanIndices N fuel k seen = .error .Diverges := by
  intro fuel
  induction fuel with
  | zero => intro k seen _; rfl
  | succ f ih =>
    intro k seen hk
    rw [scanIndices, if_pos (by omega), incr8_of_lt (by omega)]
    exact ih (k + 1) _ (by omega)

theorem scanIndices_wrap (N : Nat) (hN : 256 ≤ N) :
    ∀ (fuel k : Nat) (seen : List Nat), k < 256 →
      scanIndices N fuel k seen = .error .Diverges := by
  intro fuel
  induction fuel with
  | zero => intro k seen _; rfl
  | succ f ih =>
    intro k seen hk
    rw [scanIndices, if_pos (by omega)]
    exact ih (incr8 k) _ (incr8_lt k)

/-- A loop over the table with a `uint8_t` counter has not left after `fuel` tests
when fewer than `fuel` slots are left. -/
theorem loop_short {σ ρ : Type} (L : Nat → Nat → Table → σ → Except Fault ρ)
    (hzero : ∀ k C a, L 0 k C a = .error .Diverges)
    (hstep : ∀ fuel k C a, k < C.length →
      ∃ C' a', C'.length = C.length ∧ L (fuel + 1) k C a = L fuel (incr8 k) C' a') :
    ∀ (fuel k : Nat) (C : Table) (a : σ), C.length ≤ 255 → k + fuel ≤ C.length →
      L fuel k C a = .error .Diverges := by
  intro fuel
  induction fuel with
  | zero => intro k C a _ _; exact hzero k C a
  | succ f ih =>
    intro k C a hN hk
    obtain ⟨C', a', hlen, heq⟩ := hstep f k C a (by omega)
    rw [heq, incr8_of_lt (by omega)]
    exact ih (k + 1) C' a' (by omega) (by omega)

/-- A loop over a table of 256 or more slots with a `uint8_t` counter never leaves. -/
theorem loop_wrap {σ ρ : Type} (L : Nat → Nat → Table → σ → Except Fault ρ)
    (hzero : ∀ k C a, L 0 k C a = .error .Diverges)
    (hstep : ∀ fuel k C a, k < C.length →
      ∃ C' a', C'.length = C.length ∧ L (fuel + 1) k C a = L fuel (incr8 k) C' a') :
    ∀ (fuel k : Nat) (C : Table) (a : σ), 256 ≤ C.length → k < 256 →
      L fuel k C a = .error .Diverges := by
  intro fuel
  induction fuel with
  | zero => intro k C a _ _; exact hzero k C a
  | succ f ih =>
    intro k C a hN hk
    obtain ⟨C', a', hlen, heq⟩ := hstep f k C a (by omega)
    rw [heq]
    exact ih (incr8 k) C' a' (by omega) (incr8_lt k)

theorem Sch_Init_loop_steps (fuel k : Nat) (C : Table) (a : Unit) (hk : k < C.length) :
    ∃ C' a', C'.length = C.length ∧
      (fun f i T (_ : Unit) => Sch_Init_loop f i T) (fuel + 1) k C a
        = (fun f i T (_ : Unit) => Sch_Init_loop f i T) fuel (incr8 k) C' a' :=
  ⟨_, (), by simp, Sch_Init_loop_step fuel k C _ (List.getElem?_eq_getElem hk)⟩

theorem Sch_Update_loop_steps (v : Variant) (fuel k : Nat) (C : Table) (a : Unit)
    (hk : k < C.length) :
    ∃ C' a', C'.length = C.length ∧
      (fun f i T (_ : Unit) => Sch_Update_loop v f i T) (fuel + 1) k C a
        = (fun f i T (_ : Unit) => Sch_Update_loop v f i T) fuel (incr8 k) C' a' :=
  ⟨_, (), by simp, Sch_Update_loop_step v fuel k C _ (List.getElem?_eq_getElem hk)⟩

theorem Sch_DispatchTasks_loop_steps (fuel k : Nat) (C : Table) (calls : List Call)
    (hk : k < C.length) :
    ∃ C' calls', C'.length = C.length ∧
      Sch_DispatchTasks_loop (fuel + 1) k C calls
        = Sch_DispatchTasks_loop fuel (incr8 k) C' calls' :=
  ⟨_, _, by simp, Sch_DispatchTasks_loop_step fuel k C calls _ (List.getElem?_eq_getElem hk)⟩

theorem Sch_Init_loop_short (fuel k : Nat) (C : Table) (hN : C.length ≤ 255)
    (hk : k + fuel ≤ C.length) : Sch_Init_loop fuel k C = .error .Diverges :=
  loop_short (fun f i T (_ : Unit) => Sch_Init_loop f i T) (fun _ _ _ => rfl)
    Sch_Init_loop_steps fuel k C () hN hk

theorem Sch_Init_loop_wrap (fuel k : Nat) (C : Table) (hN : 256 ≤ C.length) (hk : k < 256) :
    Sch_Init_loop fuel k C = .error .Diverges :=
  loop_wrap (fun f i T (_ : Unit) => Sch_Init_loop f i T) (fun _ _ _ => rfl)
    Sch_Init_loop_steps fuel k C () hN hk

theorem Sch_Update_loop_short (v : Variant) (fuel k : Nat) (C : Table) (hN : C.length ≤ 255)
    (hk : k + fuel ≤ C.length) : Sch_Update_loop v fuel k C = .error .Diverges :=
  loop_short (fun f i T (_ : Unit) => Sch_Update_loop v f i T) (fun _ _ _ => rfl)
    (Sch_Update_loop_steps v) fuel k C () hN hk

theorem Sch_Update_loop_wrap (v : Variant) (fuel k : Nat) (C : Table) (hN : 256 ≤ C.length)
    (hk : k < 256) : Sch_Update_loop v fuel k C = .error .Diverges :=
  loop_wrap (fun f i T (_ : Unit) => Sch_Update_loop v f i T) (fun _ _ _ => rfl)
    (Sch_Update_loop_steps v) fuel k C () hN hk

theorem Sch_DispatchTasks_loop_short (fuel k : Nat) (C : Table) (calls : List Call)
    (hN : C.length ≤ 255) (hk : k + fuel ≤ C.length) :
    Sch_DispatchTasks_loop fuel k C calls = .error .Diverges :=
  loop_short Sch_DispatchTasks_loop (fun _ _ _ => rfl) Sch_DispatchTasks_loop_steps
    fuel k C calls hN hk

theorem Sch_DispatchTasks_loop_wrap (fuel k : Nat) (C : Table) (calls : List Call)
    (hN : 256 ≤ C.length) (hk : k < 256) :
    Sch_DispatchTasks_loop fuel k C calls = .error .Diverges :=
  loop_wrap Sch_DispatchTasks_loop (fun _ _ _ => rfl) Sch_DispatchTasks_loop_steps
    fuel k C calls hN hk

/-- C23: the loops of `Sch_Init`, `Sch_Update` and `Sch_DispatchTasks` count with
a `uint8_t`. For `SCH_MAX_TASKS ≤ 255` the loop header runs its body at the indices
`0, ..., SCH_MAX_TASKS - 1`, each once, and each loop has left after
`SCH_MAX_TASKS + 1` tests of its condition (`SCH_MAX_TASKS` passes through the
body) and not after `SCH_MAX_TASKS` tests. For `SCH_MAX_TASKS ≥ 256` the counter
wraps modulo `2 ^ 8` and no number of tests makes any of the loops leave. -/
theorem C23_uint8_scan_loops (v : Variant) (Config : Table) :
    (SCH_MAX_TASKS Config ≤ 255 →
      scanIndices (SCH_MAX_TASKS Config) (SCH_MAX_TASKS Config + 1) 0 []
        = .ok (List.range (SCH_MAX_TASKS Config)) ∧
      scanIndices (SCH_MAX_TASKS Config) (SCH_MAX_TASKS Config) 0 [] = .error .Diverges ∧
      (∃ Config', Sch_Init_loop (SCH_MAX_TASKS Config + 1) 0 Config = .ok Config') ∧
      Sch_Init_loop (SCH_MAX_TASKS Config) 0 Config = .error .Diverges ∧
      (∃ Config', Sch_Update_loop v (SCH_MAX_TASKS Config + 1) 0 Config = .ok Config') ∧
      Sch_Update_loop v (SCH_MAX_TASKS Config) 0 Config = .error .Diverges ∧
      (∃ r, Sch_DispatchTasks_loop (SCH_MAX_TASKS Config + 1) 0 Config [] = .ok r) ∧
      Sch_DispatchTasks_loop (SCH_MAX_TASKS Config) 0 Config [] = .error .Diverges ∧
      (∃ Config', Sch_Init Config = .ok Config') ∧
      (∃ r, Sch_Update v Config = .ok r) ∧
      (∃ r, Sch_DispatchTasks Config = .ok r)) ∧
    (256 ≤ SCH_MAX_TASKS Config → ∀ fuel,
      scanIndices (SCH_MAX_TASKS Config) fuel 0 [] = .error .Diverges ∧
      Sch_Init_loop fuel 0 Config = .error .Diverges ∧
      Sch_Update_loop v fuel 0 Config = .error .Diverges ∧
      Sch_DispatchTasks_loop fuel 0 Config [] = .error .Diverges) := by
  simp only [SCH_MAX_TASKS]
  constructor
  · intro hN
    refine ⟨?_, ?_, ?_, ?_, ?_, ?_, ?_, ?_, ?_, ?_, ?_⟩
    · rw [scanIndices_spec _ hN Config.length _ 0 [] (by omega) (by omega)]
      simp [List.range_eq_range']
    · exact scanIndices_short _ hN _ 0 [] (by omega)
    · exact ⟨_, table_loop_spec Sch_Init_loop (fun _ => freeSlot) Sch_Init_loop_step
        (fun fuel k C hk => by rw [Sch_Init_loop]; simp only [SCH_MAX_TASKS, hk, if_false])
        Config.length _ 0 Config hN (by omega) (by omega)⟩
    · exact Sch_Init_loop_short _ 0 Config hN (by omega)
    · exact ⟨_, table_loop_spec (Sch_Update_loop v) (Sch_Update_slot v) (Sch_Update_loop_step v)
        (fun fuel k C hk => by rw [Sch_Update_loop]; simp only [SCH_MAX_TASKS, hk, if_false])
        Config.length _ 0 Config hN (by omega) (by omega)⟩
    · exact Sch_Update_loop_short v _ 0 Config hN (by omega)
    · exact ⟨_, Sch_DispatchTasks_loop_spec Config.length _ 0 Config [] hN (by omega) (by omega)⟩
    · exact Sch_DispatchTasks_loop_short _ 0 Config [] hN (by omega)
    · exact ⟨_, Sch_Init_eq_map Config hN⟩
    · exact ⟨_, (Sch_Update_eq_tick v Config hN).choose_spec⟩
    · exact ⟨_, Sch_DispatchTasks_eq Config hN⟩
  · intro hN fuel
    refine ⟨scanIndices_wrap _ hN fuel 0 [] (by omega), ?_, ?_, ?_⟩
    · exact Sch_Init_loop_wrap fuel 0 Config hN (by omega)
    · exact Sch_Update_loop_wrap v fuel 0 Config hN (by omega)
    · exact Sch_DispatchTasks_loop_wrap fuel 0 Config [] hN (by omega)



/-- C24 (amended): for `0 < TICK < 1000` the timer setting of `Sch_Start` has
`tv_sec = 0` and `tv_nsec = TICK * 1000000` with `0 < tv_nsec < 10 ^ 9`, the product
does not overflow a 32-bit `int`, the setting is exactly `TICK` milliseconds, and
the initial expiry equals the repeat interval. For `1000 ≤ TICK ≤ 2147` the product
still fits an `int` and `tv_nsec = TICK * 1000000 ≥ 10 ^ 9` is out of the valid
range. -/
theorem C24_Sch_Start_timer_period (TICK : Int) :
    (0 < TICK → TICK < 1000 →
      (Sch_Start TICK).it_value.tv_sec = 0 ∧
      (Sch_Start TICK).it_value.tv_nsec = TICK * 1000000 ∧
      0 < (Sch_Start TICK).it_value.tv_nsec ∧
      (Sch_Start TICK).it_value.tv_nsec < 10 ^ 9 ∧
      TICK * 1000000 ≤ 2 ^ 31 - 1 ∧
      (Sch_Start TICK).it_value.tv_sec * 10 ^ 9 + (Sch_Start TICK).it_value.tv_nsec
        = TICK * 10 ^ 6 ∧
      (Sch_Start TICK).it_interval = (Sch_Start TICK).it_value) ∧
    (1000 ≤ TICK → TICK ≤ 2147 →
      (Sch_Start TICK).it_value.tv_nsec = TICK * 1000000 ∧
      10 ^ 9 ≤ (Sch_Start TICK).it_value.tv_nsec ∧
      (Sch_Start TICK).it_interval = (Sch_Start TICK).it_value) := by
  have hnsec : (Sch_Start TICK).it_value.tv_nsec = wrapInt32 (TICK * 1000000) := rfl
  have hsec : (Sch_Start TICK).it_value.tv_sec = 0 := rfl
  have hint : (Sch_Start TICK).it_interval = (Sch_Start TICK).it_value := rfl
  constructor
  · intro h0 h1
    have hw : wrapInt32 (TICK * 1000000) = TICK * 1000000 := by
      unfold wrapInt32
      omega
    rw [hnsec, hsec, hw]
    refine ⟨rfl, rfl, by omega, by omega, by omega, by omega, hint⟩
  · intro h0 h1
    have hw : wrapInt32 (TICK * 1000000) = TICK * 1000000 := by
      unfold wrapInt32
      omega
    rw [hnsec, hw]
    exact ⟨rfl, by omega, hint⟩

/-- C24 (counterexample): for `TICK = 4295` the product `4295 * 1000000` does not
fit a 32-bit `int`; reduced to 32 bits it is `32704`, which lies inside the valid
range of `tv_nsec`. -/
theorem C24_tick_4295_wraps_into_range :
    (1000 : Int) ≤ 4295 ∧
    (Sch_Start 4295).it_value.tv_nsec = 32704 ∧
    0 < (Sch_Start 4295).it_value.tv_nsec ∧ (Sch_Start 4295).it_value.tv_nsec < 10 ^ 9 := by
  decide


/-- C23, instances: a table of two slots and a table of `256` slots. -/
theorem C23_witness :
    (scanIndices (SCH_MAX_TASKS [⟨some 1, 0, 100, 0⟩, freeSlot])
        (SCH_MAX_TASKS [⟨some 1, 0, 100, 0⟩, freeSlot] + 1) 0 []
        = .ok (List.range (SCH_MAX_TASKS [⟨some 1, 0, 100, 0⟩, freeSlot])) ∧
      scanIndices (SCH_MAX_TASKS [⟨some 1, 0, 100, 0⟩, freeSlot])
        (SCH_MAX_TASKS [⟨some 1, 0, 100, 0⟩, freeSlot]) 0 [] = .error .Diverges ∧
      (∃ Config', Sch_Init_loop (SCH_MAX_TASKS [⟨some 1, 0, 100, 0⟩, freeSlot] + 1) 0
        [⟨some 1, 0, 100, 0⟩, freeSlot] = .ok Config') ∧
      Sch_Init_loop (SCH_MAX_TASKS [⟨some 1, 0, 100, 0⟩, freeSlot]) 0
        [⟨some 1, 0, 100, 0⟩, freeSlot] = .error .Diverges ∧
      (∃ Config', Sch_Update_loop .posix (SCH_MAX_TASKS [⟨some 1, 0, 100, 0⟩, freeSlot] + 1) 0
        [⟨some 1, 0, 100, 0⟩, freeSlot] = .ok Config') ∧
      Sch_Update_loop .posix (SCH_MAX_TASKS [⟨some 1, 0, 100, 0⟩, freeSlot]) 0
        [⟨some 1, 0, 100, 0⟩, freeSlot] = .error .Diverges ∧
      (∃ r, Sch_DispatchTasks_loop (SCH_MAX_TASKS [⟨some 1, 0, 100, 0⟩, freeSlot] + 1) 0
        [⟨some 1, 0, 100, 0⟩, freeSlot] [] = .ok r) ∧
      Sch_DispatchTasks_loop (SCH_MAX_TASKS [⟨some 1, 0, 100, 0⟩, freeSlot]) 0
        [⟨some 1, 0, 100, 0⟩, freeSlot] [] = .error .Diverges ∧
      (∃ Config', Sch_Init [⟨some 1, 0, 100, 0⟩, freeSlot] = .ok Config') ∧
      (∃ r, Sch_Update .posix [⟨some 1, 0, 100, 0⟩, freeSlot] = .ok r) ∧
      (∃ r, Sch_DispatchTasks [⟨some 1, 0, 100, 0⟩, freeSlot] = .ok r)) ∧
    (∀ fuel,
      scanIndices (SCH_MAX_TASKS (List.replicate 256 freeSlot)) fuel 0 [] = .error .Diverges ∧
      Sch_Init_loop fuel 0 (List.replicate 256 freeSlot) = .error .Diverges ∧
      Sch_Update_loop .posix fuel 0 (List.replicate 256 freeSlot) = .error .Diverges ∧
      Sch_DispatchTasks_loop fuel 0 (List.replicate 256 freeSlot) [] = .error .Diverges) :=
  ⟨(C23_uint8_scan_loops .posix [⟨some 1, 0, 100, 0⟩, freeSlot]).1 (by decide),
   (C23_uint8_scan_loops .posix (List.replicate 256 freeSlot)).2
     (le_of_eq (List.length_replicate 256 freeSlot).symm)⟩

/-- C24, an instance: `TICK = 10`, the value of `sch_cfg.h`. -/
theorem C24_witness :
    (Sch_Start 10).it_value.tv_sec = 0 ∧
    (Sch_Start 10).it_value.tv_nsec = 10 * 1000000 ∧
    0 < (Sch_Start 10).it_value.tv_nsec ∧
    (Sch_Start 10).it_value.tv_nsec < 10 ^ 9 ∧
    (10 : Int) * 1000000 ≤ 2 ^ 31 - 1 ∧
    (Sch_Start 10).it_value.tv_sec * 10 ^ 9 + (Sch_Start 10).it_value.tv_nsec = 10 * 10 ^ 6 ∧
    (Sch_Start 10).it_interval = (Sch_Start 10).it_value :=
  (C24_Sch_Start_timer_period 10).1 (by decide) (by decide)

/-! ## The increment of `RunMe` at the top of its type -/

/-- C4 (counterexample): a task added with `(0, 1)` to a free table of
`src/sch.c` is due at every tick; after `127` ticks its slot has `Delay = 0` and
`RunMe = 127`, and the next `Sch_Update` stores `RunMe = -128`, not `128`. -/
theorem C4_RunMe_127_wraps :
    Sch_AddTask .posix [freeSlot] (some 1) 0 1 = .ok (0, [⟨some 1, 0, 1, 0⟩]) ∧
    Sch_Update_times .posix 127 [⟨some 1, 0, 1, 0⟩] = .ok ([], [⟨some 1, 0, 1, 127⟩]) ∧
    Sch_Update .posix [⟨some 1, 0, 1, 127⟩] = .ok ([], [⟨some 1, 0, 1, -128⟩]) ∧
    (-128 : Int) ≠ 127 + 1 := by
  refine ⟨by decide, ?_, by decide, by decide⟩
  rw [Sch_Update_times_posix_eq 127 _ (by decide)]
  simp only [List.map_cons, List.map_nil]
  rw [Sch_Update_slot_iterate 1 0 1 (by decide) (by decide) 127]
  decide

end CoScheduler
